import Mathlib

/-!
Verification development for the agent-audit workflow analyzer.

The definitions below are a shallow embedding of the Python sources under
src/agent_audit/: the canonical data model (models.py), configuration tables
(config.py), the token/cost estimator (estimator.py), the lint engine
(linter.py) with its rule registry (rules/), and the format detector and
normalizers (parsers/).

Modelling conventions:
- Python ints are Lean Int (unbounded in both).
- YAML values are the inductive YVal; Python dicts are association lists
  (insertion-ordered, as Python dicts are).
- Code that can raise (int() conversion, slicing, pydantic field validation,
  pricing lookups) returns Except PyErr.
- The float expression in _split_tokens is modelled exactly: Dyadic values
  are IEEE-754 binary64 numbers (mantissa times a power of two) and rne53
  is round-to-nearest-even at 53 significant bits, the double rounding.
  (Subnormals and overflow are irrelevant at the magnitudes involved.)
- Money (cost_usd, prices) is modelled as exact rationals; no claim below
  depends on float rounding of a nonzero cost, so this is adequate there.
-/

/-- A YAML/JSON-like Python value, as produced by yaml.safe_load.
Floats are not modelled: no claim involves float-valued YAML fields. -/
inductive YVal where
  | null
  | bool (b : Bool)
  | int (n : Int)
  | str (s : String)
  | list (xs : List YVal)
  | map (kvs : List (String × YVal))

/-- Association-list lookup; models Python dict .get(k) returning None when
absent (keys are unique in a Python dict, so first match is the match). -/
def ylookup (kvs : List (String × YVal)) (k : String) : Option YVal :=
  match kvs with
  | [] => none
  | (k1, v) :: rest => if k1 = k then some v else ylookup rest k

/-- Python truthiness of a YAML value (bool(x)). -/
def yTruthy : YVal → Bool
  | .null => false
  | .bool b => b
  | .int n => n != 0
  | .str s => s ≠ ""
  | .list xs => !xs.isEmpty
  | .map kvs => !kvs.isEmpty

/-- Python `a or b` over two optional raw values, as in
`cfg.get("x") or cfg.get("y")`: the first operand wins iff it is truthy. -/
def yOrOpt (a b : Option YVal) : Option YVal :=
  match a with
  | some v => if yTruthy v then some v else b
  | none => b

/-- Lowercase one ASCII character (str.lower; non-ASCII not needed here). -/
def lowerChar (c : Char) : Char :=
  if 'A' ≤ c ∧ c ≤ 'Z' then Char.ofNat (c.toNat + 32) else c

/-- str.lower over a whole string. -/
def strLower (s : String) : String := ⟨s.data.map lowerChar⟩

/-- Does the haystack start with the needle? -/
def subAt : List Char → List Char → Bool
  | [], _ => true
  | _ :: _, [] => false
  | a :: as, b :: bs => a == b && subAt as bs

/-- Substring containment over char lists (Python `needle in hay`). -/
def hasSub (needle : List Char) : List Char → Bool
  | [] => subAt needle []
  | c :: cs => subAt needle (c :: cs) || hasSub needle cs

/-- Substring containment on strings. -/
def strHas (hay needle : String) : Bool := hasSub needle.data hay.data

mutual

/-- Python repr() of a YAML value. String escaping inside repr is elided
(no claim depends on it); dicts render as \x7b'k': v, ...\x7d and lists as
[v, ...], as CPython prints them. -/
def pyRepr : YVal → String
  | .null => "None"
  | .bool b => if b then "True" else "False"
  | .int n => toString n
  | .str s => "\x27" ++ s ++ "\x27"
  | .list xs => "[" ++ pyReprSeq xs ++ "]"
  | .map kvs => "\x7b" ++ pyReprMapSeq kvs ++ "\x7d"

/-- Comma-separated reprs of a list's elements. -/
def pyReprSeq : List YVal → String
  | [] => ""
  | [x] => pyRepr x
  | x :: y :: rest => pyRepr x ++ ", " ++ pyReprSeq (y :: rest)

/-- Comma-separated "key: value" reprs of a dict's items. -/
def pyReprMapSeq : List (String × YVal) → String
  | [] => ""
  | [(k, v)] => "\x27" ++ k ++ "\x27: " ++ pyRepr v
  | (k, v) :: p :: rest =>
      "\x27" ++ k ++ "\x27: " ++ pyRepr v ++ ", " ++ pyReprMapSeq (p :: rest)

end

/-- Python str() of a YAML value: identity on strings, repr-like otherwise. -/
def pyStr : YVal → String
  | .str s => s
  | v => pyRepr v

/-- Parse a run of decimal digits; none if any character is not a digit or
the run is empty. -/
def digitsToNat : List Char → Option Nat
  | [] => none
  | cs => go cs 0
where
  go : List Char → Nat → Option Nat
    | [], acc => some acc
    | c :: rest, acc =>
        if '0' ≤ c ∧ c ≤ '9' then go rest (acc * 10 + (c.toNat - '0'.toNat))
        else none

/-- Python int(str): optional surrounding whitespace, optional sign, digits.
(Underscore separators accepted by CPython are not modelled.) -/
def parseIntStr (s : String) : Option Int :=
  let cs := s.data.dropWhile (· = ' ')
  let cs := (cs.reverse.dropWhile (· = ' ')).reverse
  match cs with
  | '-' :: rest => (digitsToNat rest).map (fun n => -(n : Int))
  | '+' :: rest => (digitsToNat rest).map (fun n => (n : Int))
  | rest => (digitsToNat rest).map (fun n => (n : Int))

/-- The distinct Python exception kinds raised by the embedded code.
Messages are not modelled. -/
inductive PyErr where
  | typeError
  | valueError
  | attributeError
  | validationError
  | parseError
  | pricingError
  deriving DecidableEq

/-- Python int(x) on a YAML value: ints pass, bools coerce, strings parse
(ValueError when unparsable), everything else is a TypeError. -/
def pyIntOfVal : YVal → Except PyErr Int
  | .int n => .ok n
  | .bool b => .ok (if b then 1 else 0)
  | .str s =>
      match parseIntStr s with
      | some n => .ok n
      | none => .error .valueError
  | _ => .error .typeError

/-- Pydantic v2 lax validation of an `int | None` field: None and absent give
none, ints pass, numeric strings coerce, anything else fails validation. -/
def vOptInt : Option YVal → Except PyErr (Option Int)
  | none => .ok none
  | some .null => .ok none
  | some (.int n) => .ok (some n)
  | some (.str s) =>
      match parseIntStr s with
      | some n => .ok (some n)
      | none => .error .validationError
  | some _ => .error .validationError

/-- Pydantic v2 lax validation of a `str | None` field: no coercion from
non-string values. -/
def vOptStr : Option YVal → Except PyErr (Option String)
  | none => .ok none
  | some .null => .ok none
  | some (.str s) => .ok (some s)
  | some _ => .error .validationError

/-- Number of binary digits of n (fuel-driven; fuel 128 covers every
magnitude reachable in this development). -/
def bitsAux : Nat → Nat → Nat
  | 0, _ => 0
  | fuel + 1, n => if n = 0 then 0 else bitsAux fuel (n / 2) + 1

/-- Bit length of a natural number. -/
def bits (n : Nat) : Nat := bitsAux 128 n

/-- An IEEE-754 binary64 value represented exactly: m * 2^e. -/
structure Dyadic where
  m : Int
  e : Int
  deriving DecidableEq

/-- Round m * 2^e to 53 significant bits, nearest, ties to even: the IEEE
double rounding applied after an exact integer/product step. -/
def rne53 (m : Int) (e : Int) : Dyadic :=
  let a := m.natAbs
  let b := bits a
  if b ≤ 53 then ⟨m, e⟩
  else
    let r := b - 53
    let q := a >>> r
    let rem := a % (2 ^ r)
    let half := 2 ^ (r - 1)
    let q2 := if rem > half then q + 1
              else if rem < half then q
              else if q % 2 = 1 then q + 1 else q
    ⟨if m < 0 then -(q2 : Int) else (q2 : Int), e + (r : Int)⟩

/-- Conversion of a Python int to a double (exact below 2^53). -/
def flInt (n : Int) : Dyadic := rne53 n 0

/-- Correctly rounded double multiplication. -/
def fmul (x y : Dyadic) : Dyadic := rne53 (x.m * y.m) (x.e + y.e)

/-- Nearest double to the positive rational num/den (round to nearest, ties
to even); used for decimal float literals such as 0.3. -/
def flRatPos (num den : Nat) : Dyadic :=
  let e0 : Int := (bits num : Int) - (bits den : Int)
  let le2pow : Int → Bool := fun e =>
    if 0 ≤ e then den * 2 ^ e.toNat ≤ num else den ≤ num * 2 ^ (-e).toNat
  let e := if le2pow e0 then e0 else e0 - 1
  let u := e - 52
  let nd : Nat × Nat :=
    if u ≤ 0 then (num * 2 ^ (-u).toNat, den) else (num, den * 2 ^ u.toNat)
  let q := nd.1 / nd.2
  let rem := nd.1 % nd.2
  let q2 := if 2 * rem > nd.2 then q + 1
            else if 2 * rem < nd.2 then q
            else if q % 2 = 1 then q + 1 else q
  ⟨(q2 : Int), u⟩

/-- Python int() applied to a double: truncation toward zero. -/
def dTruncToInt (d : Dyadic) : Int :=
  if 0 ≤ d.e then d.m * 2 ^ d.e.toNat
  else
    let a := d.m.natAbs >>> (-d.e).toNat
    if d.m < 0 then -(a : Int) else (a : Int)

/-- Is the integer n strictly greater than the double d?  Python compares
int to float exactly, so this is the exact comparison n > m * 2^e. -/
def intGtDyadic (n : Int) (d : Dyadic) : Bool :=
  if 0 ≤ d.e then n > d.m * 2 ^ d.e.toNat
  else n * 2 ^ (-d.e).toNat > d.m

/-- Halving a double is exact: the mantissa is unchanged. -/
def dHalf (d : Dyadic) : Dyadic := ⟨d.m, d.e - 1⟩

/-- models.WorkflowFormat (StrEnum). -/
inductive WorkflowFormat where
  | gorgon
  | langchain
  | crewai
  | generic
  deriving DecidableEq

/-- models.StepType (StrEnum): the normalized step types. -/
inductive StepType where
  | llm
  | shell
  | parallelGroup
  | checkpoint
  | fan_out
  | fan_in
  | map_reduce
  | branch
  | loopStep
  | mcp_tool
  deriving DecidableEq

/-- The .value string of a StepType (its StrEnum payload). -/
def StepType.value : StepType → String
  | .llm => "llm"
  | .shell => "shell"
  | .parallelGroup => "parallel"
  | .checkpoint => "checkpoint"
  | .fan_out => "fan_out"
  | .fan_in => "fan_in"
  | .map_reduce => "map_reduce"
  | .branch => "branch"
  | .loopStep => "loop"
  | .mcp_tool => "mcp_tool"

/-- models.Severity (StrEnum). -/
inductive Severity where
  | error
  | warning
  | info
  deriving DecidableEq

/-- The .value string of a Severity. -/
def Severity.value : Severity → String
  | .error => "error"
  | .warning => "warning"
  | .info => "info"

/-- models.RuleCategory (StrEnum). -/
inductive RuleCategory where
  | budget
  | resilience
  | efficiency
  | security
  deriving DecidableEq

/-- models.ParsedStep.  An inductive rather than a structure because
nested_steps holds fully-formed child steps, recursively.  Field order and
defaults follow the pydantic model. -/
inductive ParsedStep where
  | mk
    (id : String)
    (step_type : StepType)
    (provider : Option String)
    (model : Option String)
    (role : Option String)
    (estimated_tokens : Option Int)
    (on_failure : Option String)
    (max_retries : Int)
    (timeout_seconds : Option Int)
    (has_condition : Bool)
    (has_fallback : Bool)
    (depends_on : List String)
    (nested_steps : List ParsedStep)
    (raw_params : List (String × YVal))

def ParsedStep.id : ParsedStep → String
  | .mk v _ _ _ _ _ _ _ _ _ _ _ _ _ => v

def ParsedStep.step_type : ParsedStep → StepType
  | .mk _ v _ _ _ _ _ _ _ _ _ _ _ _ => v

def ParsedStep.provider : ParsedStep → Option String
  | .mk _ _ v _ _ _ _ _ _ _ _ _ _ _ => v

def ParsedStep.model : ParsedStep → Option String
  | .mk _ _ _ v _ _ _ _ _ _ _ _ _ _ => v

def ParsedStep.role : ParsedStep → Option String
  | .mk _ _ _ _ v _ _ _ _ _ _ _ _ _ => v

def ParsedStep.estimated_tokens : ParsedStep → Option Int
  | .mk _ _ _ _ _ v _ _ _ _ _ _ _ _ => v

def ParsedStep.on_failure : ParsedStep → Option String
  | .mk _ _ _ _ _ _ v _ _ _ _ _ _ _ => v

def ParsedStep.max_retries : ParsedStep → Int
  | .mk _ _ _ _ _ _ _ v _ _ _ _ _ _ => v

def ParsedStep.timeout_seconds : ParsedStep → Option Int
  | .mk _ _ _ _ _ _ _ _ v _ _ _ _ _ => v

def ParsedStep.has_condition : ParsedStep → Bool
  | .mk _ _ _ _ _ _ _ _ _ v _ _ _ _ => v

def ParsedStep.has_fallback : ParsedStep → Bool
  | .mk _ _ _ _ _ _ _ _ _ _ v _ _ _ => v

def ParsedStep.depends_on : ParsedStep → List String
  | .mk _ _ _ _ _ _ _ _ _ _ _ v _ _ => v

def ParsedStep.nested_steps : ParsedStep → List ParsedStep
  | .mk _ _ _ _ _ _ _ _ _ _ _ _ v _ => v

def ParsedStep.raw_params : ParsedStep → List (String × YVal)
  | .mk _ _ _ _ _ _ _ _ _ _ _ _ _ v => v

/-- models.ParsedWorkflow. -/
structure ParsedWorkflow where
  name : String
  version : String := "1.0"
  description : String := ""
  format : WorkflowFormat
  token_budget : Option Int := none
  timeout_seconds : Option Int := none
  steps : List ParsedStep
  inputs : List (String × YVal) := []
  outputs : List String := []
  metadata : List (String × YVal) := []
  source_path : Option String := none

/-- models.StepEstimate.  source is one of "declared", "archetype",
"default"; cost_usd is exact-rational money. -/
structure StepEstimate where
  step_id : String
  step_type : StepType
  provider : String
  model : String
  role : Option String := none
  estimated_tokens : Int
  input_tokens : Int
  output_tokens : Int
  cost_usd : ℚ
  source : String

/-- models.WorkflowEstimate. -/
structure WorkflowEstimate where
  workflow_name : String
  total_tokens : Int
  total_cost_usd : ℚ
  budget_declared : Option Int := none
  budget_utilization : Option ℚ := none
  steps : List StepEstimate
  provider : String
  model : String

/-- models.LintFinding. -/
structure LintFinding where
  rule_id : String
  category : RuleCategory
  severity : Severity
  message : String
  step_id : Option String := none
  suggestion : Option String := none
  deriving DecidableEq

/-- models.LintReport. -/
structure LintReport where
  workflow_name : String
  score : Int
  findings : List LintFinding
  error_count : Int := 0
  warning_count : Int := 0
  info_count : Int := 0
  deriving DecidableEq

/-- models.ModelPricing (prices per 1K tokens, exact rationals). -/
structure ModelPricing where
  name : String
  provider : String
  input_price_per_1k : ℚ
  output_price_per_1k : ℚ
  context_window : Int := 0
  notes : String := ""

/-- models.ProviderConfig. -/
structure ProviderConfig where
  name : String
  models : List (String × ModelPricing)
  default_model : String

/-- Generic association-list lookup for provider/model tables
(dict.get on string keys). -/
def alookup {α : Type} (kvs : List (String × α)) (k : String) : Option α :=
  match kvs with
  | [] => none
  | (k1, v) :: rest => if k1 = k then some v else alookup rest k

/-- config.ROLE_TOKEN_DEFAULTS: token defaults by agent role. -/
def ROLE_TOKEN_DEFAULTS : List (String × Int) :=
  [("planner", 5000),
   ("builder", 20000),
   ("tester", 10000),
   ("reviewer", 5000),
   ("architect", 8000),
   ("documenter", 6000),
   ("analyst", 8000),
   ("reporter", 4000),
   ("visualizer", 5000),
   ("security_auditor", 12000)]

/-- config.STEP_TYPE_TOKEN_DEFAULTS: default tokens by step type value. -/
def STEP_TYPE_TOKEN_DEFAULTS : List (String × Int) :=
  [("llm", 8000),
   ("shell", 0),
   ("checkpoint", 0),
   ("mcp_tool", 0),
   ("fan_in", 0),
   ("branch", 0)]

/-- config.INPUT_OUTPUT_RATIO = 0.3 (renamed; the IEEE-754 double denoted by
the Python literal 0.3). -/
def INPUT_OUTPUT_RATE : Dyadic := flRatPos 3 10

/-- config.STEP_TYPE_PROVIDER_MAP. -/
def STEP_TYPE_PROVIDER_MAP : List (String × String) :=
  [("claude_code", "anthropic"), ("openai", "openai")]

/-- config.LLM_STEP_TYPES. -/
def LLM_STEP_TYPES : List String := ["claude_code", "openai"]

/-- config.SEVERITY_DEDUCTIONS: lint scoring weights. -/
def SEVERITY_DEDUCTIONS : List (String × Int) :=
  [("error", 10), ("warning", 5), ("info", 2)]

/-- estimator._resolve_tokens step 3: the step-type default, with the
explicit llm fallback when the table lookup yields 0. -/
def defaultTokensFor (st : StepType) : Int :=
  let d := (alookup STEP_TYPE_TOKEN_DEFAULTS st.value).getD 0
  if st = StepType.llm ∧ d = 0 then (alookup STEP_TYPE_TOKEN_DEFAULTS "llm").getD 8000
  else d

/-- estimator._resolve_tokens: (tokens, source) via the declared /
archetype / default priority chain.  The archetype branch mirrors
`if step.role and step.role in ROLE_TOKEN_DEFAULTS` (truthiness guard plus
key membership). -/
def resolveTokens (step : ParsedStep) : Int × String :=
  match step.estimated_tokens with
  | some n => (n, "declared")
  | none =>
    let roleHit : Option Int :=
      match step.role with
      | some r => if r ≠ "" then alookup ROLE_TOKEN_DEFAULTS r else none
      | none => none
    match roleHit with
    | some v => (v, "archetype")
    | none => (defaultTokensFor step.step_type, "default")

/-- estimator._split_tokens: input = int(total * 0.3) under exact IEEE-754
double semantics; output = total - input. -/
def splitTokens (total : Int) : Int × Int :=
  let input_tokens := dTruncToInt (fmul (flInt total) INPUT_OUTPUT_RATE)
  (input_tokens, total - input_tokens)

/-- Python `x or y` where x is an optional string and y a string ("" is
falsy). -/
def strOrOpt (a : Option String) (b : String) : String :=
  match a with
  | some s => if s = "" then b else s
  | none => b

/-- Truthiness of an `int | None` value (used by
`"declared" if step.estimated_tokens else "archetype"`): 0 and None are
falsy. -/
def optIntTruthy : Option Int → Bool
  | some n => n != 0
  | none => false

/-- Round-half-even integer division for d > 0: Python round(n / d) with the
division taken exactly (float quotient rounding is not modelled; it is only
used in percentages inside messages and in budget_utilization, which no
claim compares at nonzero values). -/
def intRoundDiv (n d : Int) : Int :=
  let q := Int.fdiv n d
  let r := n - q * d
  if 2 * r > d then q + 1
  else if 2 * r < d then q
  else if q % 2 = 0 then q else q + 1

/-- Python round(x, 6) on exact-rational money. -/
def round6 (q : ℚ) : ℚ := (intRoundDiv (q.num * 1000000) q.den : ℚ) / 1000000

/-- pricing.get_model_pricing, over an explicit provider table (the loaded
providers.yaml collaborator).  model = "" stands for a falsy model argument
(`model or config.default_model`). -/
def get_model_pricing (providers : List (String × ProviderConfig))
    (provider : String) (model : String) : Except PyErr ModelPricing :=
  match alookup providers provider with
  | none => .error .pricingError
  | some config =>
    let model_name := if model = "" then config.default_model else model
    match alookup config.models model_name with
    | none => .error .pricingError
    | some pricing => .ok pricing

/-- pricing.calculate_cost: per-1K prices applied to the split, rounded to
6 decimal places. -/
def calculate_cost (input_tokens output_tokens : Int) (pricing : ModelPricing) : ℚ :=
  let input_cost := ((input_tokens : ℚ) / 1000) * pricing.input_price_per_1k
  let output_cost := ((output_tokens : ℚ) / 1000) * pricing.output_price_per_1k
  round6 (input_cost + output_cost)

/-- Sum of the resolved totals of the nested steps
(`sum(_resolve_tokens(ns)[0] for ns in step.nested_steps)`). -/
def nestedSum (steps : List ParsedStep) : Int :=
  (steps.map (fun ns => (resolveTokens ns).1)).sum

/-- estimator.estimate_step: resolve tokens (container steps take the nested
sum when larger), split, and cost the step.  Non-LLM steps cost 0.0 without
consulting the pricing table. -/
def estimate_step (providers : List (String × ProviderConfig))
    (step : ParsedStep) (provider model : String) : Except PyErr StepEstimate :=
  let rt := resolveTokens step
  let ts : Int × String :=
    if step.nested_steps.isEmpty then rt
    else
      let nested := nestedSum step.nested_steps
      if nested > rt.1 then
        (nested, if optIntTruthy step.estimated_tokens then "declared" else "archetype")
      else rt
  let io2 := splitTokens ts.1
  if step.step_type ≠ StepType.llm then
    .ok ⟨step.id, step.step_type, provider, model, step.role, ts.1, io2.1, io2.2, 0, ts.2⟩
  else
    match get_model_pricing providers provider model with
    | .error e => .error e
    | .ok pricing =>
        .ok ⟨step.id, step.step_type, provider, model, step.role, ts.1, io2.1, io2.2,
             calculate_cost io2.1 io2.2 pricing, ts.2⟩

/-- First step declaring a truthy provider (`for step in workflow.steps:
if step.provider: ...`). -/
def firstStepProvider : List ParsedStep → Option String
  | [] => none
  | s :: rest =>
    match s.provider with
    | some p => if p ≠ "" then some p else firstStepProvider rest
    | none => firstStepProvider rest

/-- The per-step estimation loop of estimate_workflow: an explicit caller
provider overrides each step's own; otherwise `step.provider or provider`
and `step.model or model`. -/
def runStepEstimates (providers : List (String × ProviderConfig))
    (explicit_provider : Bool) (provider model : String) :
    List ParsedStep → Except PyErr (List StepEstimate)
  | [] => .ok []
  | s :: rest => do
    let step_provider := if explicit_provider then provider else strOrOpt s.provider provider
    let step_model := strOrOpt s.model model
    let e ← estimate_step providers s step_provider step_model
    let es ← runStepEstimates providers explicit_provider provider model rest
    .ok (e :: es)

/-- The provider-resolution phase of estimate_workflow: an explicit caller
provider wins; else the first step declaring one; else "anthropic". -/
def estProv (workflow : ParsedWorkflow) (provider? : Option String) : String :=
  match provider? with
  | some p => p
  | none =>
    match firstStepProvider workflow.steps with
    | some p => p
    | none => "anthropic"

/-- The model-resolution phase of estimate_workflow: an explicit caller
model wins; else the resolved provider's configured default model. -/
def estModel (providers : List (String × ProviderConfig))
    (provider : String) (model? : Option String) : String :=
  match model? with
  | some m => m
  | none =>
    match alookup providers provider with
    | some config => config.default_model
    | none => "unknown"

/-- estimator.estimate_workflow over an explicit provider table (the
load_providers() collaborator result). -/
def estimate_workflow (providers : List (String × ProviderConfig))
    (workflow : ParsedWorkflow) (provider? model? : Option String) :
    Except PyErr WorkflowEstimate :=
  let explicit_provider := provider?.isSome
  let provider := estProv workflow provider?
  let model := estModel providers provider model?
  match runStepEstimates providers explicit_provider provider model workflow.steps with
  | .error e => .error e
  | .ok ests =>
    let total_tokens := (ests.map (·.estimated_tokens)).sum
    let total_cost := (ests.map (·.cost_usd)).sum
    let budget_util : Option ℚ :=
      match workflow.token_budget with
      | some b =>
        if b ≠ 0 ∧ b > 0 then some ((intRoundDiv (total_tokens * 1000) b : ℚ) / 10)
        else none
      | none => none
    .ok ⟨workflow.name, total_tokens, round6 total_cost, workflow.token_budget,
         budget_util, ests, provider, model⟩

/-- Left brace character (written via its code point). -/
def lbrace : Char := Char.ofNat 123

/-- Right brace character (written via its code point). -/
def rbrace : Char := Char.ofNat 125

/-- Insert a thousands separator after each group of three digits, walking
the reversed digit list. -/
def group3 : List Char → Nat → List Char
  | [], _ => []
  | c :: cs, k => if k = 3 then ',' :: c :: group3 cs 1 else c :: group3 cs (k + 1)

/-- Python f-string "\x7bn:,\x7d": decimal with thousands separators. -/
def commaFmt (n : Int) : String :=
  let ds := (toString n.natAbs).data
  (if n < 0 then "-" else "") ++ ⟨(group3 ds.reverse 0).reverse⟩

/-- Python ", ".join(...). -/
def joinComma : List String → String
  | [] => ""
  | [x] => x
  | x :: y :: rest => x ++ ", " ++ joinComma (y :: rest)

/-- Truthy-or-zero of an `int | None` (Python `x or 0`; 0 and None both give
0, which coincides with plain defaulting). -/
def optOr0 : Option Int → Int
  | some n => n
  | none => 0

/-- rules.budget.check_workflow_budget (B001, warning): fires iff no
token_budget is declared. -/
def check_workflow_budget (workflow : ParsedWorkflow) : List LintFinding :=
  match workflow.token_budget with
  | none =>
    [⟨"B001", .budget, .warning,
      "Workflow has no token_budget — cost risk is unbounded.", none,
      some "Add \x27token_budget: <limit>\x27 to the workflow config."⟩]
  | some _ => []

/-- rules.budget.check_step_budget_hog (B002, warning): declared step
estimate above 50% of the declared budget.  The threshold is the double
budget * 0.5 (halving a double is exact) and the int/float comparison is
exact, as in CPython. -/
def check_step_budget_hog (workflow : ParsedWorkflow) : List LintFinding :=
  match workflow.token_budget with
  | none => []
  | some b =>
    if b = 0 then []
    else
      let threshold := dHalf (flInt b)
      workflow.steps.filterMap (fun step =>
        match step.estimated_tokens with
        | some tokens =>
          if intGtDyadic tokens threshold then
            let pct := intRoundDiv (tokens * 100) b
            some ⟨"B002", .budget, .warning,
              "Step \x27" ++ step.id ++ "\x27 uses " ++ commaFmt tokens ++
                " tokens (" ++ toString pct ++ "% of workflow budget).",
              some step.id,
              some "Consider breaking this step into smaller sub-steps."⟩
          else none
        | none => none)

/-- The archetype-else-llm-default fallback shared by B003 and R005 for
LLM steps without a declared estimate. -/
def roleOrLlmDefault (s : ParsedStep) : Int :=
  let roleHit : Option Int :=
    match s.role with
    | some r => if r ≠ "" then alookup ROLE_TOKEN_DEFAULTS r else none
    | none => none
  match roleHit with
  | some v => v
  | none => (alookup STEP_TYPE_TOKEN_DEFAULTS "llm").getD 8000

/-- The best-effort total of rules.budget.check_total_over_budget: declared
estimates count for every step; undeclared LLM steps contribute their
archetype or llm default. -/
def b003Total : List ParsedStep → Int
  | [] => 0
  | s :: rest =>
    let add : Int :=
      match s.estimated_tokens with
      | some t => t
      | none => if s.step_type = StepType.llm then roleOrLlmDefault s else 0
    add + b003Total rest

/-- rules.budget.check_total_over_budget (B003, error): best-effort total
strictly above the declared budget. -/
def check_total_over_budget (workflow : ParsedWorkflow) : List LintFinding :=
  match workflow.token_budget with
  | none => []
  | some b =>
    if b = 0 then []
    else
      let total := b003Total workflow.steps
      if total > b then
        [⟨"B003", .budget, .error,
          "Estimated total (" ++ commaFmt total ++ " tokens) exceeds workflow budget (" ++
            commaFmt b ++ " tokens).", none,
          some "Increase token_budget or reduce step estimates."⟩]
      else []

/-- rules.budget.check_undeclared_tokens (B004, info): LLM step without a
declared estimate. -/
def check_undeclared_tokens (workflow : ParsedWorkflow) : List LintFinding :=
  workflow.steps.filterMap (fun step =>
    if step.step_type = StepType.llm ∧ step.estimated_tokens = none then
      some ⟨"B004", .budget, .info,
        "Step \x27" ++ step.id ++ "\x27 has no estimated_tokens — using defaults.",
        some step.id,
        some "Add \x27estimated_tokens\x27 to step params for accurate costing."⟩
    else none)

/-- rules.resilience.check_missing_on_failure (R001, warning). -/
def check_missing_on_failure (workflow : ParsedWorkflow) : List LintFinding :=
  workflow.steps.filterMap (fun step =>
    if step.step_type = StepType.llm ∧ step.on_failure = none then
      some ⟨"R001", .resilience, .warning,
        "Step \x27" ++ step.id ++ "\x27 has no on_failure handler.",
        some step.id,
        some "Add \x27on_failure: retry\x27 or \x27on_failure: skip\x27 to handle errors."⟩
    else none)

/-- rules.resilience.check_abort_no_fallback (R002, warning). -/
def check_abort_no_fallback (workflow : ParsedWorkflow) : List LintFinding :=
  workflow.steps.filterMap (fun step =>
    if step.on_failure = some "abort" ∧ !step.has_fallback then
      some ⟨"R002", .resilience, .warning,
        "Step \x27" ++ step.id ++ "\x27 uses on_failure: abort without a fallback — workflow will halt on any error.",
        some step.id,
        some "Add a \x27fallback\x27 config or use \x27on_failure: retry\x27."⟩
    else none)

/-- rules.resilience.check_retry_no_max (R003, info). -/
def check_retry_no_max (workflow : ParsedWorkflow) : List LintFinding :=
  workflow.steps.filterMap (fun step =>
    if step.on_failure = some "retry" ∧ step.max_retries = 0 then
      some ⟨"R003", .resilience, .info,
        "Step \x27" ++ step.id ++ "\x27 has on_failure: retry but max_retries is 0 (unbounded).",
        some step.id,
        some "Set \x27max_retries: 3\x27 to prevent infinite retry loops."⟩
    else none)

/-- rules.resilience.check_shell_no_timeout (R004, warning). -/
def check_shell_no_timeout (workflow : ParsedWorkflow) : List LintFinding :=
  workflow.steps.filterMap (fun step =>
    if step.step_type = StepType.shell ∧ step.timeout_seconds = none then
      some ⟨"R004", .resilience, .warning,
        "Shell step \x27" ++ step.id ++ "\x27 has no timeout — may run indefinitely.",
        some step.id,
        some "Add \x27timeout_seconds: 300\x27 to prevent hung processes."⟩
    else none)

/-- The scan of rules.resilience.check_missing_checkpoint: walk the steps
carrying (consecutive LLM count, summed resolved tokens); a checkpoint
resets both, other non-LLM types leave them unchanged; stop at the first
point where count ≥ 3 and tokens ≥ 30000. -/
def checkpointScan : List ParsedStep → Int → Int → List LintFinding
  | [], _, _ => []
  | step :: rest, consecutive_llm, expensive_tokens =>
    let st : Int × Int :=
      if step.step_type = StepType.llm then
        let tokens :=
          match step.estimated_tokens with
          | some t => t
          | none => roleOrLlmDefault step
        (consecutive_llm + 1, expensive_tokens + tokens)
      else if step.step_type = StepType.checkpoint then (0, 0)
      else (consecutive_llm, expensive_tokens)
    if st.1 ≥ 3 ∧ st.2 ≥ 30000 then
      [⟨"R005", .resilience, .info,
        toString st.1 ++ " consecutive LLM steps (" ++ commaFmt st.2 ++
          " tokens) without a checkpoint.", none,
        some "Add a checkpoint step between expensive groups for recovery."⟩]
    else checkpointScan rest st.1 st.2

/-- rules.resilience.check_missing_checkpoint (R005, info): at most one
finding. -/
def check_missing_checkpoint (workflow : ParsedWorkflow) : List LintFinding :=
  checkpointScan workflow.steps 0 0

/-- rules.efficiency.check_parallelizable (E001, info): adjacent LLM steps
with no explicit dependency and no textual output reference.  The Python
output set is modelled as a list; duplicate names cannot change the `any`
check. -/
def check_parallelizable (workflow : ParsedWorkflow) : List LintFinding :=
  let llm_steps := workflow.steps.filter (fun s => s.step_type == StepType.llm)
  (llm_steps.zip llm_steps.tail).filterMap (fun cn =>
    let current := cn.1
    let next_step := cn.2
    if next_step.depends_on.contains current.id then none
    else
      let current_outputs : List String :=
        match ylookup current.raw_params "outputs" with
        | some (.list vs) => vs.map pyStr
        | _ => []
      let prompt := pyStr ((ylookup next_step.raw_params "prompt").getD (.str ""))
      let has_dependency :=
        current_outputs.any (fun v => strHas prompt ("$\x7b" ++ v ++ "\x7d"))
      if !has_dependency ∧ next_step.depends_on.isEmpty then
        some ⟨"E001", .efficiency, .info,
          "Steps \x27" ++ current.id ++ "\x27 and \x27" ++ next_step.id ++
            "\x27 appear to have no data dependency — consider running in parallel.",
          some next_step.id,
          some "Wrap in a \x27parallel\x27 step or add explicit depends_on."⟩
      else none)

/-- Append a step id under its role, preserving first-insertion order
(dict.setdefault(role, []).append(id)). -/
def addRole (acc : List (String × List String)) (r s_id : String) :
    List (String × List String) :=
  if acc.any (fun p => p.1 == r) then
    acc.map (fun p => if p.1 == r then (p.1, p.2 ++ [s_id]) else p)
  else acc ++ [(r, [s_id])]

/-- The role → step-ids grouping of rules.efficiency.check_duplicate_roles
(LLM steps with a truthy role only). -/
def roleGroups : List ParsedStep → List (String × List String) → List (String × List String)
  | [], acc => acc
  | s :: rest, acc =>
    let acc :=
      match s.role with
      | some r => if s.step_type == StepType.llm && r ≠ "" then addRole acc r s.id else acc
      | none => acc
    roleGroups rest acc

/-- rules.efficiency.check_duplicate_roles (E002, warning): a role assigned
to more than two LLM steps. -/
def check_duplicate_roles (workflow : ParsedWorkflow) : List LintFinding :=
  (roleGroups workflow.steps []).filterMap (fun p =>
    if p.2.length > 2 then
      some ⟨"E002", .efficiency, .warning,
        "Role \x27" ++ p.1 ++ "\x27 is assigned to " ++ toString p.2.length ++
          " steps (" ++ joinComma p.2 ++ ") — possible redundancy.", none,
        some ("Consider consolidating " ++ p.1 ++ " steps or using different roles.")⟩
    else none)

/-- A default ParsedStep used only as the List.getD fallback below (the
source indexes steps[i-1] / steps[i+1] under guards that keep the index in
range, so the fallback is never read). -/
def dummyStep : ParsedStep :=
  .mk "" .llm none none none none none 0 none false false [] [] []

/-- rules.efficiency.check_lightweight_checkpoint (E003, info): checkpoint
whose neighbours both declare fewer than 5000 tokens. -/
def check_lightweight_checkpoint (workflow : ParsedWorkflow) : List LintFinding :=
  workflow.steps.enum.filterMap (fun iv =>
    let i := iv.1
    let step := iv.2
    if step.step_type != StepType.checkpoint then none
    else
      let prev_tokens : Int :=
        if 0 < i then optOr0 (workflow.steps.getD (i - 1) dummyStep).estimated_tokens
        else 0
      let next_tokens : Int :=
        if i < workflow.steps.length - 1 then
          optOr0 (workflow.steps.getD (i + 1) dummyStep).estimated_tokens
        else 0
      if prev_tokens < 5000 ∧ next_tokens < 5000 then
        some ⟨"E003", .efficiency, .info,
          "Checkpoint \x27" ++ step.id ++
            "\x27 is between lightweight steps — may add unnecessary overhead.",
          some step.id,
          some "Remove checkpoint if recovery isn\x27t needed at this point."⟩
      else none)

/-- Is a fetched raw value None (absent key, or an explicit YAML null)? -/
def isNoneVal : Option YVal → Bool
  | none => true
  | some .null => true
  | some _ => false

/-- rules.efficiency.check_fan_out_no_limit (E004, warning): fan_out step
without a max_concurrent raw param. -/
def check_fan_out_no_limit (workflow : ParsedWorkflow) : List LintFinding :=
  workflow.steps.filterMap (fun step =>
    if step.step_type = StepType.fan_out then
      if isNoneVal (ylookup step.raw_params "max_concurrent") then
        some ⟨"E004", .efficiency, .warning,
          "fan_out step \x27" ++ step.id ++
            "\x27 has no max_concurrent limit — may overwhelm resources.",
          some step.id,
          some "Add \x27max_concurrent: 4\x27 to limit parallel execution."⟩
      else none
    else none)

/-- Is there a closing brace after at least one non-brace character?  The
tail of the regex `\$\x7b[^\x7d]+\x7d` after its opening "$\x7b". -/
def seekClose : List Char → Bool
  | [] => false
  | c :: rest => c == rbrace || seekClose rest

/-- Match `[^\x7d]+\x7d` at the head of the list. -/
def closeBraceAfterOne : List Char → Bool
  | [] => false
  | c :: rest => !(c == rbrace) && seekClose rest

/-- re.search of `\$\x7b[^\x7d]+\x7d` over the command characters. -/
def shellVarScan : List Char → Bool
  | [] => false
  | c :: rest =>
    (c == '$' &&
      (match rest with
       | c2 :: rest2 => c2 == lbrace && closeBraceAfterOne rest2
       | [] => false)) ||
    shellVarScan rest

/-- rules.security.check_shell_injection (S001, error): shell step whose raw
command matches the interpolation pattern. -/
def check_shell_injection (workflow : ParsedWorkflow) : List LintFinding :=
  workflow.steps.filterMap (fun step =>
    if step.step_type != StepType.shell then none
    else
      let command := pyStr ((ylookup step.raw_params "command").getD (.str ""))
      if shellVarScan command.data then
        some ⟨"S001", .security, .error,
          "Shell step \x27" ++ step.id ++
            "\x27 uses variable interpolation in command — potential command injection risk.",
          some step.id,
          some "Validate inputs or use parameterized execution."⟩
      else none)

/-- The alternatives of the hardcoded-path pattern of
rules.security.check_hardcoded_paths. -/
def HARDCODED_PATH_ALTS : List String :=
  ["/usr/", "/home/", "/etc/", "/var/", "/opt/", "C:\\"]

/-- rules.security.check_hardcoded_paths (S002, warning). -/
def check_hardcoded_paths (workflow : ParsedWorkflow) : List LintFinding :=
  workflow.steps.filterMap (fun step =>
    if step.step_type != StepType.shell then none
    else
      let command := pyStr ((ylookup step.raw_params "command").getD (.str ""))
      if HARDCODED_PATH_ALTS.any (fun p => strHas command p) then
        some ⟨"S002", .security, .warning,
          "Shell step \x27" ++ step.id ++
            "\x27 contains hardcoded paths — may not be portable.",
          some step.id,
          some "Use input variables or environment variables for paths."⟩
      else none)

/-- rules.security.check_input_validation (S003, info): required inputs with
no type constraint. -/
def check_input_validation (workflow : ParsedWorkflow) : List LintFinding :=
  if workflow.inputs.isEmpty then []
  else
    workflow.inputs.filterMap (fun nc =>
      match nc.2 with
      | .map config =>
        let is_required := yTruthy ((ylookup config "required").getD (.bool false))
        let has_type := (ylookup config "type").isSome
        if is_required ∧ !has_type then
          some ⟨"S003", .security, .info,
            "Required input \x27" ++ nc.1 ++ "\x27 has no type constraint.", none,
            some ("Add \x27type: string\x27 (or appropriate type) to input \x27" ++
              nc.1 ++ "\x27.")⟩
        else none
      | _ => none)

/-- rules.security.check_mcp_no_server (S004, warning): mcp_tool step whose
server raw param is falsy or absent. -/
def check_mcp_no_server (workflow : ParsedWorkflow) : List LintFinding :=
  workflow.steps.filterMap (fun step =>
    if step.step_type != StepType.mcp_tool then none
    else
      let server := ylookup step.raw_params "server"
      let falsy :=
        match server with
        | none => true
        | some v => !yTruthy v
      if falsy then
        some ⟨"S004", .security, .warning,
          "MCP tool step \x27" ++ step.id ++
            "\x27 has no server specified — tool resolution may be ambiguous.",
          some step.id,
          some "Add \x27server: <name>\x27 to specify which MCP server to use."⟩
      else none)

/-- rules.RuleEntry: registered lint rule metadata. -/
structure RuleEntry where
  rule_id : String
  category : RuleCategory
  severity : Severity
  description : String
  func : ParsedWorkflow → List LintFinding

/-- rules._RULE_REGISTRY after every rule module has been imported, in
registration order: linter.py imports budget then resilience at module
top, and _import_all_rules then imports efficiency then security. -/
def RULE_REGISTRY : List RuleEntry :=
  [⟨"B001", .budget, .warning, "No token_budget declared at workflow level",
    check_workflow_budget⟩,
   ⟨"B002", .budget, .warning, "Step estimate exceeds 50% of workflow budget",
    check_step_budget_hog⟩,
   ⟨"B003", .budget, .error, "Sum of step estimates exceeds declared budget",
    check_total_over_budget⟩,
   ⟨"B004", .budget, .info, "LLM step without estimated_tokens",
    check_undeclared_tokens⟩,
   ⟨"R001", .resilience, .warning, "LLM step has no on_failure handler",
    check_missing_on_failure⟩,
   ⟨"R002", .resilience, .warning, "on_failure: abort with no fallback",
    check_abort_no_fallback⟩,
   ⟨"R003", .resilience, .info, "retry without max_retries",
    check_retry_no_max⟩,
   ⟨"R004", .resilience, .warning, "Shell step without timeout",
    check_shell_no_timeout⟩,
   ⟨"R005", .resilience, .info, "No checkpoint between expensive step groups",
    check_missing_checkpoint⟩,
   ⟨"E001", .efficiency, .info, "Sequential LLM steps could be parallel",
    check_parallelizable⟩,
   ⟨"E002", .efficiency, .warning, "Duplicate role assignments",
    check_duplicate_roles⟩,
   ⟨"E003", .efficiency, .info, "Unnecessary checkpoint between lightweight steps",
    check_lightweight_checkpoint⟩,
   ⟨"E004", .efficiency, .warning, "fan_out without max_concurrent limit",
    check_fan_out_no_limit⟩,
   ⟨"S001", .security, .error, "Shell step with variable interpolation (command injection risk)",
    check_shell_injection⟩,
   ⟨"S002", .security, .warning, "Hardcoded paths in shell commands",
    check_hardcoded_paths⟩,
   ⟨"S003", .security, .info, "No input validation on required inputs",
    check_input_validation⟩,
   ⟨"S004", .security, .warning, "MCP tool step without server validation",
    check_mcp_no_server⟩]

/-- rules.get_all_rules. -/
def get_all_rules : List RuleEntry := RULE_REGISTRY

/-- rules.get_rules_by_category. -/
def get_rules_by_category (category : RuleCategory) : List RuleEntry :=
  RULE_REGISTRY.filter (fun r => r.category == category)

/-- The rule-execution loop of linter.run_lint: concatenate the findings of
each rule in order. -/
def gatherFindings : List RuleEntry → ParsedWorkflow → List LintFinding
  | [], _ => []
  | r :: rest, wf => r.func wf ++ gatherFindings rest wf

/-- linter.run_lint: select rules (category filter), run them in order,
post-filter by severity, count, and score (100 minus per-severity
deductions, floored at 0). -/
def run_lint (workflow : ParsedWorkflow)
    (category : Option RuleCategory) (severity : Option Severity) : LintReport :=
  let rules :=
    match category with
    | some c => get_rules_by_category c
    | none => get_all_rules
  let findings := gatherFindings rules workflow
  let findings :=
    match severity with
    | some sv => findings.filter (fun f => f.severity == sv)
    | none => findings
  let error_count : Int := (findings.countP (fun f => f.severity == Severity.error) : Int)
  let warning_count : Int := (findings.countP (fun f => f.severity == Severity.warning) : Int)
  let info_count : Int := (findings.countP (fun f => f.severity == Severity.info) : Int)
  let score :=
    findings.foldl (fun s f => s - (alookup SEVERITY_DEDUCTIONS f.severity.value).getD 0)
      (100 : Int)
  let score := max 0 score
  ⟨workflow.name, score, findings, error_count, warning_count, info_count⟩

/-- parsers._GORGON_STEP_TYPES: step-type strings that signal the step-graph
format. -/
def GORGON_STEP_TYPES : List String :=
  ["claude_code", "openai", "shell", "parallel", "checkpoint", "fan_out",
   "fan_in", "map_reduce", "branch", "loop", "mcp_tool"]

/-- The pure hit predicate of the step-graph probe, defined on items whose
type value is hashable: a mapping whose "type" is a string in the known
set.  (The raising of unhashable type values is modelled separately by
gorgonTypeTest; this predicate only serves the declarative
characterizations below.) -/
def gorgonStepSignal (v : YVal) : Bool :=
  match v with
  | .map kvs =>
    match ylookup kvs "type" with
    | some (.str s) => GORGON_STEP_TYPES.contains s
    | _ => false
  | _ => false

/-- CPython's `step.get("type") in _GORGON_STEP_TYPES`: set membership
hashes its left operand, so a list- or dict-valued type raises TypeError;
None (absent key), null, bools and ints are hashable non-members. -/
def gorgonTypeTest (v : Option YVal) : Except PyErr Bool :=
  match v with
  | some (.list _) => .error .typeError
  | some (.map _) => .error .typeError
  | some (.str s) => .ok (GORGON_STEP_TYPES.contains s)
  | _ => .ok false

/-- The step-graph probe loop of detect_format: first mapping item whose
type passes the membership test wins; a TypeError from the test
propagates; non-mapping items are skipped before any hashing. -/
def gorgonScan : List YVal → Except PyErr Bool
  | [] => .ok false
  | v :: rest =>
    match v with
    | .map kvs => do
      let hit ← gorgonTypeTest (ylookup kvs "type")
      if hit then .ok true else gorgonScan rest
    | _ => gorgonScan rest

/-- The steps branch of detect_format (its last positive signal). -/
def gorgonBranch (raw : List (String × YVal)) : Except PyErr WorkflowFormat :=
  match ylookup raw "steps" with
  | some (.list xs) =>
    if !xs.isEmpty then do
      let hit ← gorgonScan xs
      if hit then .ok WorkflowFormat.gorgon else .ok WorkflowFormat.generic
    else .ok .generic
  | _ => .ok .generic

/-- parsers.detect_format: the ordered detection cascade.  Fallible: the
step-graph membership test raises TypeError on unhashable type values. -/
def detect_format (raw : List (String × YVal)) : Except PyErr WorkflowFormat :=
  if (ylookup raw "agents").isSome ∧ (ylookup raw "tasks").isSome then .ok .crewai
  else if (ylookup raw "nodes").isSome ∨ (ylookup raw "edges").isSome then .ok .langchain
  else
    let meta := (ylookup raw "metadata").getD (.map [])
    let metaIsDict := match meta with | .map _ => true | _ => false
    if metaIsDict && strHas (strLower (pyStr meta)) "langgraph" then .ok .langchain
    else gorgonBranch raw

/-- Is one raw steps-list item free of the unhashable-type hazard (its
membership test cannot raise)? -/
def hashableItem (v : YVal) : Bool :=
  match v with
  | .map kvs =>
    match ylookup kvs "type" with
    | some (.list _) => false
    | some (.map _) => false
    | _ => true
  | _ => true

/-- No steps-list mapping item carries a list- or mapping-valued type, so
the detection cascade cannot raise. -/
def stepsTypeHashable (raw : List (String × YVal)) : Bool :=
  match ylookup raw "steps" with
  | some (.list xs) => xs.all hashableItem
  | _ => true

/-- A raw mapping whose first steps item carries an unhashable (mapping)
type value: CPython raises TypeError there, before seeing the second,
step-graph-signalling item. -/
def c3UnhashableRaw : List (String × YVal) :=
  [("steps", .list [.map [("type", .map [])], .map [("type", .str "shell")]])]

/-- parsers.gorgon._TYPE_MAP. -/
def TYPE_MAP : List (String × StepType) :=
  [("claude_code", .llm), ("openai", .llm), ("shell", .shell),
   ("parallel", .parallelGroup), ("checkpoint", .checkpoint),
   ("fan_out", .fan_out), ("fan_in", .fan_in), ("map_reduce", .map_reduce),
   ("branch", .branch), ("loop", .loopStep), ("mcp_tool", .mcp_tool)]

/-- Python iteration over a raw value, as in
`[x for x in v if isinstance(x, dict)]` before the filter: lists yield
elements, dicts yield their keys, strings yield their characters, and
non-iterables raise TypeError. -/
def pyIterItems : YVal → Except PyErr (List YVal)
  | .list xs => .ok xs
  | .map kvs => .ok (kvs.map (fun kv => .str kv.1))
  | .str s => .ok (s.data.map (fun c => .str ⟨[c]⟩))
  | _ => .error .typeError

/-- Pydantic validation of the `dict[str, Any]` workflow fields (inputs,
metadata): a missing value falls back to the default dict; non-dicts fail
validation. -/
def vDict : Option YVal → Except PyErr (List (String × YVal))
  | none => .ok []
  | some (.map kvs) => .ok kvs
  | some _ => .error .validationError

/-- Pydantic validation of a `list[str]` field's items (no coercion). -/
def vStrListItems : List YVal → Except PyErr (List String)
  | [] => .ok []
  | .str s :: rest => do
    let more ← vStrListItems rest
    .ok (s :: more)
  | _ :: _ => .error .validationError

mutual

/-- parsers.gorgon._parse_step over a raw step dict.  The fuel argument
only bounds the nested-step recursion depth: it decreases exactly when
parsing descends one nesting level, and parse_gorgon supplies far more
units than any nesting reachable from its argument (see stepFuel), so the
fuel-exhaustion branch is unreachable from parse_gorgon.  Raising
operations (non-dict params, int() on max_retries, pydantic field
validation) are sequenced as CPython evaluates them. -/
def parseStepF (fuel : Nat) (raw : List (String × YVal)) : Except PyErr ParsedStep :=
  match fuel with
  | 0 => .error .parseError
  | fuel + 1 => do
    let step_id := pyStr ((ylookup raw "id").getD (.str "unknown"))
    let raw_type := pyStr ((ylookup raw "type").getD (.str "shell"))
    let step_type := (alookup TYPE_MAP raw_type).getD StepType.shell
    let paramsVal : YVal :=
      match ylookup raw "params" with
      | some v => if yTruthy v then v else .map []
      | none => .map []
    let params ←
      match paramsVal with
      | .map kvs => Except.ok kvs
      | _ => Except.error PyErr.attributeError
    let providerOpt : Option String :=
      if LLM_STEP_TYPES.contains raw_type then alookup STEP_TYPE_PROVIDER_MAP raw_type
      else none
    let modelRaw : Option YVal :=
      if LLM_STEP_TYPES.contains raw_type then ylookup params "model" else none
    let depends_on : List String :=
      match (ylookup raw "depends_on").getD (.list []) with
      | .str s => [s]
      | .list xs => xs.map pyStr
      | _ => []
    let nested_steps ← nestedProbe fuel params raw
      ["steps", "step_template", "map_step", "reduce_step"]
    let max_retries ← pyIntOfVal ((ylookup raw "max_retries").getD (.int 0))
    let model ← vOptStr modelRaw
    let role ← vOptStr (ylookup params "role")
    let estimated_tokens ← vOptInt (ylookup params "estimated_tokens")
    let on_failure ← vOptStr (ylookup raw "on_failure")
    let timeout_seconds ← vOptInt (ylookup raw "timeout_seconds")
    .ok (.mk step_id step_type providerOpt model role estimated_tokens on_failure
      max_retries timeout_seconds ((ylookup raw "condition").isSome)
      ((ylookup raw "fallback").isSome) depends_on nested_steps params)
termination_by (fuel, 0, 0)

/-- The nested-step key probe of _parse_step: for each key, in order,
`params.get(key) or raw.get(key)`; list values contribute their dict items
recursively, dict values contribute one recursive step. -/
def nestedProbe (fuel : Nat) (params raw : List (String × YVal)) (keys : List String) :
    Except PyErr (List ParsedStep) :=
  match keys with
  | [] => .ok []
  | key :: restKeys => do
    let nested_raw := yOrOpt (ylookup params key) (ylookup raw key)
    let here ←
      match nested_raw with
      | some (.list xs) => parseStepListF fuel xs
      | some (.map kvs) => do
        let s ← parseStepF fuel kvs
        Except.ok [s]
      | _ => Except.ok []
    let rest ← nestedProbe fuel params raw restKeys
    .ok (here ++ rest)
termination_by (fuel, 2, keys.length)

/-- Parse the dict items of a raw step list, silently skipping non-dict
entries (`_parse_step(s) for s in v if isinstance(s, dict)`). -/
def parseStepListF (fuel : Nat) (xs : List YVal) : Except PyErr (List ParsedStep) :=
  match xs with
  | [] => .ok []
  | .map kvs :: rest => do
    let s ← parseStepF fuel kvs
    let more ← parseStepListF fuel rest
    .ok (s :: more)
  | _ :: rest => parseStepListF fuel rest
termination_by (fuel, 1, xs.length)

end

mutual

/-- Executable size of a raw value (1 per node and per sequence slot). -/
def ysizeV : YVal → Nat
  | .null => 1
  | .bool _ => 1
  | .int _ => 1
  | .str _ => 1
  | .list xs => 1 + ysizeL xs
  | .map kvs => 1 + ysizeM kvs

/-- Executable size of a raw list. -/
def ysizeL : List YVal → Nat
  | [] => 0
  | x :: rest => 1 + ysizeV x + ysizeL rest

/-- Executable size of a raw mapping. -/
def ysizeM : List (String × YVal) → Nat
  | [] => 0
  | kv :: rest => 1 + ysizeV kv.2 + ysizeM rest

end

/-- Fuel budget for parsing a raw step list: fuel is consumed once per
nesting level, the nesting depth below a dict item is bounded by its size,
and non-mapping items (which the loop skips without recursing) contribute
nothing — so this bound is both sufficient and invariant under removing
non-mapping items. -/
def stepFuel (xs : List YVal) : Nat :=
  8 * (xs.map (fun v => match v with | .map kvs => 1 + ysizeM kvs | _ => 0)).sum + 8

/-- parsers.gorgon.parse_gorgon. -/
def parse_gorgon (raw : List (String × YVal)) (source_path : Option String) :
    Except PyErr ParsedWorkflow := do
  let name := pyStr ((ylookup raw "name").getD (.str "unnamed"))
  let version := pyStr ((ylookup raw "version").getD (.str "1.0"))
  let description := pyStr ((ylookup raw "description").getD (.str ""))
  let stepItems ← pyIterItems ((ylookup raw "steps").getD (.list []))
  let steps ← parseStepListF (stepFuel stepItems) stepItems
  let outputs : List String :=
    match (ylookup raw "outputs").getD (.list []) with
    | .list xs => xs.map pyStr
    | _ => []
  let token_budget ← vOptInt (ylookup raw "token_budget")
  let timeout_seconds ← vOptInt (ylookup raw "timeout_seconds")
  let inputs ← vDict (ylookup raw "inputs")
  let metadata ← vDict (ylookup raw "metadata")
  .ok ⟨name, version, description, .gorgon, token_budget, timeout_seconds, steps,
    inputs, outputs, metadata, source_path⟩

/-- parsers.crewai._parse_agent. -/
def parse_agent (agent : List (String × YVal)) (index : Nat) :
    Except PyErr ParsedStep := do
  let step_id := pyStr ((ylookup agent "name").getD
    ((ylookup agent "role").getD (.str ("agent_" ++ toString index))))
  let roleStr := pyStr ((ylookup agent "role").getD (.str ""))
  let role : Option String := if roleStr = "" then none else some roleStr
  let provider ← vOptStr (ylookup agent "llm_provider")
  let model ← vOptStr (yOrOpt (ylookup agent "llm") (ylookup agent "model"))
  let estimated_tokens ← vOptInt (ylookup agent "max_tokens")
  .ok (.mk step_id .llm provider model role estimated_tokens none 0 none
    false false [] [] agent)

/-- Python v[:40] (slicing): strings and lists slice; other values raise
TypeError.  Evaluated eagerly as the default argument of
`task.get("name", task.get("description", ...)[:40])`. -/
def pySlice40 : YVal → Except PyErr YVal
  | .str s => .ok (.str ⟨s.data.take 40⟩)
  | .list xs => .ok (.list (xs.take 40))
  | _ => .error .typeError

/-- parsers.crewai._parse_task. -/
def parse_task (task : List (String × YVal)) (index : Nat) :
    Except PyErr ParsedStep := do
  let descSliced ← pySlice40
    ((ylookup task "description").getD (.str ("task_" ++ toString index)))
  let step_id := pyStr ((ylookup task "name").getD descSliced)
  let depends_on : List String :=
    match ylookup task "agent" with
    | some v => if yTruthy v then [pyStr v] else []
    | none => []
  let role ← vOptStr (ylookup task "role")
  let estimated_tokens ← vOptInt (ylookup task "max_tokens")
  .ok (.mk step_id .llm none none role estimated_tokens none 0 none
    false false depends_on [] task)

/-- The agents loop of parse_crewai: enumerate, keeping dict entries only
(the index advances over skipped entries too). -/
def parseAgentsLoop (items : List YVal) (i : Nat) : Except PyErr (List ParsedStep) :=
  match items with
  | [] => .ok []
  | .map kvs :: rest => do
    let s ← parse_agent kvs i
    let more ← parseAgentsLoop rest (i + 1)
    .ok (s :: more)
  | _ :: rest => parseAgentsLoop rest (i + 1)

/-- The tasks loop of parse_crewai. -/
def parseTasksLoop (items : List YVal) (i : Nat) : Except PyErr (List ParsedStep) :=
  match items with
  | [] => .ok []
  | .map kvs :: rest => do
    let s ← parse_task kvs i
    let more ← parseTasksLoop rest (i + 1)
    .ok (s :: more)
  | _ :: rest => parseTasksLoop rest (i + 1)

/-- parsers.crewai.parse_crewai. -/
def parse_crewai (raw : List (String × YVal)) (source_path : Option String) :
    Except PyErr ParsedWorkflow := do
  let name := pyStr ((ylookup raw "name").getD
    ((ylookup raw "crew").getD (.str "unnamed-crew")))
  let agentItems ← pyIterItems ((ylookup raw "agents").getD (.list []))
  let agentSteps ← parseAgentsLoop agentItems 0
  let taskItems ← pyIterItems ((ylookup raw "tasks").getD (.list []))
  let taskSteps ← parseTasksLoop taskItems 0
  let token_budget ← vOptInt (yOrOpt (ylookup raw "token_budget") (ylookup raw "max_tokens"))
  let inputs ← vDict (ylookup raw "inputs")
  let metadata ← vDict (ylookup raw "metadata")
  .ok ⟨name, "1.0", "", .crewai, token_budget, none, agentSteps ++ taskSteps,
    inputs, [], metadata, source_path⟩

/-- parsers.langchain._node_to_step. -/
def nodeToStep (node : List (String × YVal)) (index : Nat) :
    Except PyErr ParsedStep := do
  let step_id := pyStr ((ylookup node "id").getD
    ((ylookup node "name").getD (.str ("node_" ++ toString index))))
  let node_type := strLower (pyStr ((ylookup node "type").getD (.str "")))
  let step_type :=
    if node_type = "tool" ∨ node_type = "function" then StepType.shell
    else if node_type = "branch" ∨ node_type = "conditional" then StepType.branch
    else if node_type = "parallel" then StepType.parallelGroup
    else StepType.llm
  let provider ← vOptStr (ylookup node "provider")
  let model ← vOptStr (ylookup node "model")
  let role ← vOptStr (ylookup node "role")
  let estimated_tokens ← vOptInt (ylookup node "max_tokens")
  .ok (.mk step_id step_type provider model role estimated_tokens none 0 none
    false false [] [] node)

/-- The nodes loop of parse_langchain: enumerate, keeping dict entries only
(the index advances over skipped entries too). -/
def parseNodesLoop (items : List YVal) (i : Nat) : Except PyErr (List ParsedStep) :=
  match items with
  | [] => .ok []
  | .map kvs :: rest => do
    let s ← nodeToStep kvs i
    let more ← parseNodesLoop rest (i + 1)
    .ok (s :: more)
  | _ :: rest => parseNodesLoop rest (i + 1)

/-- Rebuild a step with one more dependency (s.depends_on.append(source)). -/
def addDep (s : ParsedStep) (src : String) : ParsedStep :=
  .mk s.id s.step_type s.provider s.model s.role s.estimated_tokens s.on_failure
    s.max_retries s.timeout_seconds s.has_condition s.has_fallback
    (s.depends_on ++ [src]) s.nested_steps s.raw_params

/-- One pass of the edge loop: a dict edge whose resolved source and target
are both known step ids appends the source to depends_on of every step
carrying the target id (unless already present); any other edge item is
skipped. -/
def applyEdge (ids : List String) (steps : List ParsedStep) : YVal → List ParsedStep
  | .map kvs =>
    let source := pyStr ((ylookup kvs "source").getD
      ((ylookup kvs "from").getD (.str "")))
    let target := pyStr ((ylookup kvs "target").getD
      ((ylookup kvs "to").getD (.str "")))
    if ids.contains source = true ∧ ids.contains target = true then
      steps.map (fun s =>
        if s.id = target ∧ s.depends_on.contains source = false then addDep s source
        else s)
    else steps
  | _ => steps

/-- The edges loop of parse_langchain (the step_ids snapshot is taken once,
before the loop; ids never change, so this is faithful). -/
def applyEdgesLoop (ids : List String) (edges : List YVal)
    (steps : List ParsedStep) : List ParsedStep :=
  match edges with
  | [] => steps
  | e :: rest => applyEdgesLoop ids rest (applyEdge ids steps e)

/-- parsers.langchain.parse_langchain. -/
def parse_langchain (raw : List (String × YVal)) (source_path : Option String) :
    Except PyErr ParsedWorkflow := do
  let name := pyStr ((ylookup raw "name").getD
    ((ylookup raw "graph").getD (.str "unnamed-graph")))
  let nodeItems ← pyIterItems ((ylookup raw "nodes").getD (.list []))
  let nodeSteps ← parseNodesLoop nodeItems 0
  let edgeItems ← pyIterItems ((ylookup raw "edges").getD (.list []))
  let steps := applyEdgesLoop (nodeSteps.map ParsedStep.id) edgeItems nodeSteps
  let token_budget ← vOptInt (ylookup raw "token_budget")
  let inputs ← vDict (ylookup raw "inputs")
  let metadata ← vDict (ylookup raw "metadata")
  .ok ⟨name, "1.0", "", .langchain, token_budget, none, steps,
    inputs, [], metadata, source_path⟩

/-- parsers.generic._guess_step_type. -/
def guessStepType (config : List (String × YVal)) : StepType :=
  if (ylookup config "command").isSome ∨ (ylookup config "cmd").isSome then .shell
  else if (ylookup config "prompt").isSome ∨ (ylookup config "model").isSome ∨
      (ylookup config "llm").isSome then .llm
  else
    match ylookup config "steps" with
    | some (.list _) => .parallelGroup
    | _ => .llm

/-- parsers.generic._parse_generic_step.  int() on max_retries is evaluated
in argument position, before pydantic validates the other fields. -/
def parse_generic_step (step_id : String) (config : List (String × YVal)) :
    Except PyErr ParsedStep := do
  let step_type := guessStepType config
  let max_retries ← pyIntOfVal ((ylookup config "max_retries").getD (.int 0))
  let provider ← vOptStr (ylookup config "provider")
  let model ← vOptStr (ylookup config "model")
  let role ← vOptStr (ylookup config "role")
  let estimated_tokens ← vOptInt
    (yOrOpt (ylookup config "estimated_tokens") (ylookup config "max_tokens"))
  let on_failure ← vOptStr
    (yOrOpt (ylookup config "on_failure") (ylookup config "on_error"))
  let timeout_seconds ← vOptInt
    (yOrOpt (ylookup config "timeout") (ylookup config "timeout_seconds"))
  .ok (.mk step_id step_type provider model role estimated_tokens on_failure
    max_retries timeout_seconds false false [] [] config)

/-- The list-shaped steps loop of parse_generic (ids default to
"<label>_<index>"); non-dict items are skipped, the index still advancing. -/
def parseGenericListLoop (label : String) (items : List YVal) (i : Nat) :
    Except PyErr (List ParsedStep) :=
  match items with
  | [] => .ok []
  | .map kvs :: rest => do
    let step_id := pyStr ((ylookup kvs "id").getD
      ((ylookup kvs "name").getD (.str (label ++ "_" ++ toString i))))
    let s ← parse_generic_step step_id kvs
    let more ← parseGenericListLoop label rest (i + 1)
    .ok (s :: more)
  | _ :: rest => parseGenericListLoop label rest (i + 1)

/-- The mapping-shaped steps loop of parse_generic (name → config). -/
def parseGenericMapLoop (kvs : List (String × YVal)) : Except PyErr (List ParsedStep) :=
  match kvs with
  | [] => .ok []
  | (k, v) :: rest =>
    match v with
    | .map config => do
      let s ← parse_generic_step k config
      let more ← parseGenericMapLoop rest
      .ok (s :: more)
    | _ => parseGenericMapLoop rest

/-- The agents/tasks/pipeline fallback of parse_generic: the loop breaks at
the first key whose fetched value is a list — and the default for an absent
key is the empty list, which is a list, so the break always fires at the
first key unless its value is present and not a list. -/
def genericFallbackLoop (raw : List (String × YVal)) (keys : List String) :
    Except PyErr (List ParsedStep) :=
  match keys with
  | [] => .ok []
  | key :: restKeys =>
    match (ylookup raw key).getD (.list []) with
    | .list xs => parseGenericListLoop key xs 0
    | _ => genericFallbackLoop raw restKeys

/-- parsers.generic.parse_generic. -/
def parse_generic (raw : List (String × YVal)) (source_path : Option String) :
    Except PyErr ParsedWorkflow := do
  let name := pyStr ((ylookup raw "name").getD
    ((ylookup raw "workflow").getD (.str "unnamed")))
  let steps ←
    match (ylookup raw "steps").getD (.list []) with
    | .list xs => parseGenericListLoop "step" xs 0
    | .map kvs => parseGenericMapLoop kvs
    | _ => Except.ok []
  let steps ←
    if steps.isEmpty then genericFallbackLoop raw ["agents", "tasks", "pipeline"]
    else Except.ok steps
  let token_budget ← vOptInt (yOrOpt (ylookup raw "token_budget") (ylookup raw "budget"))
  let inputs ← vDict (ylookup raw "inputs")
  let outputs ←
    match ylookup raw "outputs" with
    | some (.list xs) => vStrListItems xs
    | _ => Except.ok []
  let metadata ← vDict (ylookup raw "metadata")
  .ok ⟨name, "1.0", "", .generic, token_budget, none, steps, inputs, outputs,
    metadata, source_path⟩

/-- Budget utilization of an estimate result, none on error (used to state
absence of utilization without binders). -/
def estBudgetUtil : Except PyErr WorkflowEstimate → Option ℚ
  | .ok e => e.budget_utilization
  | .error _ => none


/-- Concrete step exercising the declared branch of C4. -/
def c4DeclaredStep : ParsedStep :=
  .mk "d" .llm none none (some "planner") (some 123) none 0 none false false [] [] []

/-- Concrete step exercising the archetype branch of C4. -/
def c4RoleStep : ParsedStep :=
  .mk "r" .llm none none (some "tester") none none 0 none false false [] [] []

/-- Concrete step exercising the default branch of C4. -/
def c4DefaultStep : ParsedStep :=
  .mk "t" .shell none none (some "nobody") none none 0 none false false [] [] []

/-- Concrete shell step with a provider and model no pricing table knows. -/
def c9ShellStep : ParsedStep :=
  .mk "deploy" .shell none none none (some 400) none 0 none false false [] []
    [("command", .str "./deploy.sh")]

/-- Concrete zero-budget workflow with one shell step. -/
def c10Workflow : ParsedWorkflow :=
  { name := "zb", format := .gorgon, token_budget := some 0,
    steps := [.mk "sh" .shell none none none (some 90000) none 0 none
      false false [] [] []] }

/-- No input entry is a mapping declaring required without a type (the
condition under which S003 stays silent). -/
def s003Clean (inputs : List (String × YVal)) : Bool :=
  inputs.all (fun nc =>
    match nc.2 with
    | .map config =>
      !(yTruthy ((ylookup config "required").getD (.bool false)) &&
        !(ylookup config "type").isSome)
    | _ => true)

/-- An empty-step workflow with no declared budget. -/
def wfEmptyNoBudget : ParsedWorkflow :=
  { name := "empty", format := .gorgon, steps := [] }

/-- An empty-step workflow with a declared budget and no inputs. -/
def wfEmptyWithBudget : ParsedWorkflow :=
  { name := "empty", format := .gorgon, steps := [], token_budget := some 150000 }

/-- The agent/task signal of the detection cascade (C3's first condition). -/
def crewaiSignal (raw : List (String × YVal)) : Prop :=
  (ylookup raw "agents").isSome = true ∧ (ylookup raw "tasks").isSome = true

/-- The node/edge-graph signal: a nodes or edges key, or a metadata
sub-mapping whose lowercased string representation contains "langgraph". -/
def langchainSignal (raw : List (String × YVal)) : Prop :=
  (ylookup raw "nodes").isSome = true ∨ (ylookup raw "edges").isSome = true
  ∨ ∃ kvs, (ylookup raw "metadata").getD (.map []) = .map kvs
      ∧ strHas (strLower (pyStr (.map kvs))) "langgraph" = true

/-- The step-graph signal: a steps key holding a non-empty list with at
least one mapping item whose type is in the step-graph vocabulary. -/
def gorgonSignal (raw : List (String × YVal)) : Prop :=
  ∃ xs, ylookup raw "steps" = some (.list xs) ∧ xs ≠ []
    ∧ ∃ v ∈ xs, ∃ kvs s, v = .map kvs ∧ ylookup kvs "type" = some (.str s)
        ∧ s ∈ GORGON_STEP_TYPES

/-- Provider table for the override demonstration. -/
def c7ProvTab : List (String × ProviderConfig) := [("fastai", ⟨"fastai", [], "quick-1"⟩)]

/-- A shell step declaring its own provider and model. -/
def c7Step1 : ParsedStep :=
  .mk "s1" .shell (some "p1") (some "m1") none (some 100) none 0 none false false [] [] []

/-- A shell step declaring neither provider nor model. -/
def c7Step2 : ParsedStep :=
  .mk "s2" .shell none none none (some 50) none 0 none false false [] [] []

/-- Two-step workflow for the override demonstration. -/
def c7Workflow : ParsedWorkflow :=
  { name := "c7", format := .generic, steps := [c7Step1, c7Step2] }

/-- Is a raw value a mapping (isinstance(x, dict))? -/
def isMapVal : YVal → Bool
  | .map _ => true
  | _ => false

/-- An agent/task raw mapping whose task has a well-formed name but an
integer description: `task.get("description", ...)[:40]` is evaluated
eagerly and slicing an int raises TypeError. -/
def crewBad : List (String × YVal) :=
  [("name", .str "w"), ("agents", .list []),
   ("tasks", .list [.map [("name", .str "t"), ("description", .int 5)]])]

/-! Theorems. -/

theorem lintScore_foldl (fs : List LintFinding) (init : Int) :
    fs.foldl (fun s f => s - (alookup SEVERITY_DEDUCTIONS f.severity.value).getD 0) init
      = init - (fs.map (fun f => (alookup SEVERITY_DEDUCTIONS f.severity.value).getD 0)).sum := by
  induction fs generalizing init with
  | nil => simp
  | cons f rest ih =>
    simp only [List.foldl_cons, List.map_cons, List.sum_cons, ih]
    omega

theorem dedSum_eq (fs : List LintFinding) :
    (fs.map (fun f => (alookup SEVERITY_DEDUCTIONS f.severity.value).getD 0)).sum
      = 10 * (fs.countP (fun f => f.severity == Severity.error) : Int)
        + 5 * (fs.countP (fun f => f.severity == Severity.warning) : Int)
        + 2 * (fs.countP (fun f => f.severity == Severity.info) : Int) := by
  induction fs with
  | nil => simp
  | cons f rest ih =>
    rw [List.map_cons, List.sum_cons, ih]
    cases hsev : f.severity
    case error =>
      simp only [List.countP_cons, hsev]
      rw [show (alookup SEVERITY_DEDUCTIONS (Severity.value Severity.error)).getD 0
        = (10 : Int) from rfl]
      norm_num
      push_cast
      ring
    case warning =>
      simp only [List.countP_cons, hsev]
      rw [show (alookup SEVERITY_DEDUCTIONS (Severity.value Severity.warning)).getD 0
        = (5 : Int) from rfl]
      norm_num
      push_cast
      ring
    case info =>
      simp only [List.countP_cons, hsev]
      rw [show (alookup SEVERITY_DEDUCTIONS (Severity.value Severity.info)).getD 0
        = (2 : Int) from rfl]
      norm_num
      push_cast
      ring

/-- C2: for every workflow and every category/severity filter choice, the
returned LintReport's score equals max(0, 100 minus the summed per-severity
deductions (error 10, warning 5, info 2) over the returned findings), and
its three counts equal the number of findings of each severity in that same
returned list. -/
theorem run_lint_score_consistent (wf : ParsedWorkflow)
    (category : Option RuleCategory) (severity : Option Severity) :
    (run_lint wf category severity).score
      = max 0 (100 -
          (10 * ((run_lint wf category severity).findings.countP
              (fun f => f.severity == Severity.error) : Int)
           + 5 * ((run_lint wf category severity).findings.countP
              (fun f => f.severity == Severity.warning) : Int)
           + 2 * ((run_lint wf category severity).findings.countP
              (fun f => f.severity == Severity.info) : Int)))
    ∧ (run_lint wf category severity).error_count
      = ((run_lint wf category severity).findings.countP
          (fun f => f.severity == Severity.error) : Int)
    ∧ (run_lint wf category severity).warning_count
      = ((run_lint wf category severity).findings.countP
          (fun f => f.severity == Severity.warning) : Int)
    ∧ (run_lint wf category severity).info_count
      = ((run_lint wf category severity).findings.countP
          (fun f => f.severity == Severity.info) : Int) := by
  have key : ∀ fs : List LintFinding,
      max 0 (fs.foldl
          (fun s f => s - (alookup SEVERITY_DEDUCTIONS f.severity.value).getD 0) 100)
        = max 0 (100 -
            (10 * (fs.countP (fun f => f.severity == Severity.error) : Int)
             + 5 * (fs.countP (fun f => f.severity == Severity.warning) : Int)
             + 2 * (fs.countP (fun f => f.severity == Severity.info) : Int))) :=
    fun fs => by rw [lintScore_foldl, dedSum_eq]
  exact ⟨key _, rfl, rfl, rfl⟩

theorem defaultTokensFor_eq (st : StepType) :
    defaultTokensFor st = if st = StepType.llm then 8000 else 0 := by
  cases st <;> rfl

/-- C4: the resolved token estimate follows the strict priority chain:
a present declared estimate gives (value, "declared"); else a role that is
a key of the 10-entry role table gives (table value, "archetype"); else the
step-type default gives ((llm ? 8000 : 0), "default").  The table equality
pins the 10 archetypes and their values. -/
theorem resolveTokens_priority (step : ParsedStep) :
    ROLE_TOKEN_DEFAULTS =
      [("planner", 5000), ("builder", 20000), ("tester", 10000),
       ("reviewer", 5000), ("architect", 8000), ("documenter", 6000),
       ("analyst", 8000), ("reporter", 4000), ("visualizer", 5000),
       ("security_auditor", 12000)]
    ∧ (∀ n, step.estimated_tokens = some n → resolveTokens step = (n, "declared"))
    ∧ (∀ r v, step.estimated_tokens = none → step.role = some r →
        alookup ROLE_TOKEN_DEFAULTS r = some v →
        resolveTokens step = (v, "archetype"))
    ∧ (step.estimated_tokens = none →
        (∀ r, step.role = some r → alookup ROLE_TOKEN_DEFAULTS r = none) →
        resolveTokens step =
          ((if step.step_type = StepType.llm then 8000 else 0), "default")) := by
  refine ⟨rfl, ?_, ?_, ?_⟩
  · intro n hn
    simp [resolveTokens, hn]
  · intro r v he hr hv
    have hemp : alookup ROLE_TOKEN_DEFAULTS "" = none := rfl
    have hne : r ≠ "" := by
      intro h0
      rw [h0, hemp] at hv
      cases hv
    simp [resolveTokens, he, hr, hne, hv]
  · intro he hrole
    rcases hr : step.role with _ | r
    · simp [resolveTokens, he, hr, defaultTokensFor_eq]
    · by_cases hne : r = ""
      · simp [resolveTokens, he, hr, hne, defaultTokensFor_eq]
      · simp [resolveTokens, he, hr, hne, hrole r hr, defaultTokensFor_eq]




theorem resolveTokens_priority_witness :
    resolveTokens c4DeclaredStep = (123, "declared")
    ∧ resolveTokens c4RoleStep = (10000, "archetype")
    ∧ resolveTokens c4DefaultStep = (0, "default") :=
  ⟨(resolveTokens_priority c4DeclaredStep).2.1 123 rfl,
   (resolveTokens_priority c4RoleStep).2.2.1 "tester" 10000 rfl rfl rfl,
   (resolveTokens_priority c4DefaultStep).2.2.2 rfl
     (by
       intro r hr
       simp [c4DefaultStep, ParsedStep.role] at hr
       subst hr
       rfl)⟩

/-- C9: estimating a step whose type is not llm-call yields cost 0.0 and
never consults the pricing table: the call succeeds for every provider
table and every (possibly unknown) provider/model, so it cannot raise
PricingError. -/
theorem estimate_step_nonllm_zero_cost (providers : List (String × ProviderConfig))
    (step : ParsedStep) (provider model : String)
    (h : step.step_type ≠ StepType.llm) :
    ∃ se, estimate_step providers step provider model = .ok se ∧ se.cost_usd = 0 := by
  simp only [estimate_step]
  rw [if_pos h]
  exact ⟨_, rfl, rfl⟩


theorem estimate_step_nonllm_zero_cost_witness :
    ∃ se, estimate_step [] c9ShellStep "no-such-provider" "no-such-model" = .ok se
      ∧ se.cost_usd = 0 :=
  estimate_step_nonllm_zero_cost [] c9ShellStep "no-such-provider" "no-such-model"
    (by decide)

/-- C10: a declared token_budget of 0 is silently treated as unbudgeted: the
budget-hog rule (B002) and the budget-overrun rule (B003) return no
findings, the missing-budget rule (B001) also returns none (a budget value
is present), and the estimate's budget_utilization is absent. -/
theorem zero_budget_unbudgeted (providers : List (String × ProviderConfig))
    (wf : ParsedWorkflow) (provider? model? : Option String)
    (h : wf.token_budget = some 0) :
    check_workflow_budget wf = []
    ∧ check_step_budget_hog wf = []
    ∧ check_total_over_budget wf = []
    ∧ estBudgetUtil (estimate_workflow providers wf provider? model?) = none := by
  refine ⟨?_, ?_, ?_, ?_⟩
  · simp [check_workflow_budget, h]
  · simp [check_step_budget_hog, h]
  · simp [check_total_over_budget, h]
  · unfold estimate_workflow
    cases hr : runStepEstimates providers provider?.isSome (estProv wf provider?)
        (estModel providers (estProv wf provider?) model?) wf.steps with
    | error e => simp [hr, estBudgetUtil]
    | ok ests => simp [hr, estBudgetUtil, h]


theorem zero_budget_unbudgeted_witness :
    check_workflow_budget c10Workflow = []
    ∧ check_step_budget_hog c10Workflow = []
    ∧ check_total_over_budget c10Workflow = []
    ∧ estBudgetUtil (estimate_workflow [] c10Workflow none none) = none :=
  zero_budget_unbudgeted [] c10Workflow none none rfl

set_option maxRecDepth 20000 in
/-- C6 counterexample: at T = 8000000000000003 the double computation
int(T * 0.3) yields 2400000000000001, one more than the exact mathematical
floor of 0.3 * T, which is 2400000000000000. -/
theorem splitTokens_not_exact_floor :
    (splitTokens 8000000000000003).1 = 2400000000000001
    ∧ Int.fdiv (3 * 8000000000000003) 10 = 2400000000000000
    ∧ (splitTokens 8000000000000003).1 ≠ Int.fdiv (3 * 8000000000000003) 10 := by
  refine ⟨by decide, by decide, by decide⟩

set_option maxRecDepth 20000 in
/-- C6 as amended: input_tokens + output_tokens = T holds for every resolved
total T, and input_tokens = floor(0.3 * T) holds at the default and
archetype token magnitudes the estimator produces (and all moderate values),
though not for every T. -/
theorem splitTokens_sum_exact :
    (∀ total : Int, (splitTokens total).1 + (splitTokens total).2 = total)
    ∧ ([0, 1, 3, 7, 10, 4000, 5000, 6000, 8000, 10000, 12000, 20000,
        30000, 40000, 123456].all
        (fun t => (splitTokens t).1 = Int.fdiv (3 * t) 10)) = true := by
  constructor
  · intro total
    simp only [splitTokens]
    omega
  · decide

theorem round6_zero : round6 0 = 0 := by
  simp [round6, intRoundDiv]

theorem check_input_validation_clean (wf : ParsedWorkflow)
    (h : s003Clean wf.inputs = true) : check_input_validation wf = [] := by
  unfold check_input_validation
  by_cases he : wf.inputs.isEmpty
  · simp [he]
  · simp only [he, Bool.false_eq_true, ↓reduceIte]
    rw [List.filterMap_eq_nil_iff]
    intro nc hmem
    have hpred := (List.all_eq_true.mp h) nc hmem
    rcases nc with ⟨nm, v⟩
    cases v with
    | map config =>
      simp only at hpred
      cases hreq : yTruthy ((ylookup config "required").getD (.bool false)) <;>
        cases hty : (ylookup config "type").isSome <;>
        simp_all
    | null => simp
    | bool b => simp
    | int n => simp
    | str s => simp
    | list xs => simp

theorem stepRules_empty (wf : ParsedWorkflow) (h : wf.steps = []) :
    check_undeclared_tokens wf = [] ∧ check_missing_on_failure wf = []
    ∧ check_abort_no_fallback wf = [] ∧ check_retry_no_max wf = []
    ∧ check_shell_no_timeout wf = [] ∧ check_missing_checkpoint wf = []
    ∧ check_parallelizable wf = [] ∧ check_duplicate_roles wf = []
    ∧ check_lightweight_checkpoint wf = [] ∧ check_fan_out_no_limit wf = []
    ∧ check_shell_injection wf = [] ∧ check_hardcoded_paths wf = []
    ∧ check_mcp_no_server wf = [] := by
  refine ⟨?_, ?_, ?_, ?_, ?_, ?_, ?_, ?_, ?_, ?_, ?_, ?_, ?_⟩ <;>
    simp [check_undeclared_tokens, check_missing_on_failure, check_abort_no_fallback,
      check_retry_no_max, check_shell_no_timeout, check_missing_checkpoint,
      checkpointScan, check_parallelizable, check_duplicate_roles, roleGroups,
      check_lightweight_checkpoint, check_fan_out_no_limit, check_shell_injection,
      check_hardcoded_paths, check_mcp_no_server, h]

theorem budget_rules_empty (wf : ParsedWorkflow) (h : wf.steps = [])
    (b : Int) (hb : wf.token_budget = some b) (hb0 : 0 ≤ b) :
    check_step_budget_hog wf = [] ∧ check_total_over_budget wf = [] := by
  constructor
  · by_cases h0 : b = 0 <;> simp [check_step_budget_hog, hb, h0, h]
  · by_cases h0 : b = 0
    · simp [check_total_over_budget, hb, h0]
    · simp [check_total_over_budget, hb, h0, h, b003Total]
      omega

/-- C1 as amended: with an empty top-level step list the estimate always has
total_tokens = 0 and total_cost_usd = 0.0, and run_lint with no filters
returns score 100 with an empty findings list provided the workflow declares
a non-negative token budget (otherwise B001 fires) and no input entry is
required without a type (otherwise S003 fires). -/
theorem empty_workflow_estimate_and_lint (providers : List (String × ProviderConfig))
    (wf : ParsedWorkflow) (provider? model? : Option String)
    (hsteps : wf.steps = []) (b : Int) (hb : wf.token_budget = some b) (hb0 : 0 ≤ b)
    (hin : s003Clean wf.inputs = true) :
    (∃ e, estimate_workflow providers wf provider? model? = .ok e
       ∧ e.total_tokens = 0 ∧ e.total_cost_usd = 0)
    ∧ run_lint wf none none =
        { workflow_name := wf.name, score := 100, findings := [],
          error_count := 0, warning_count := 0, info_count := 0 } := by
  constructor
  · unfold estimate_workflow
    simp only [hsteps]
    exact ⟨_, rfl, rfl, by simp [runStepEstimates, round6_zero]⟩
  · obtain ⟨h1, h2, h3, h4, h5, h6, h7, h8, h9, h10, h11, h12, h13⟩ :=
      stepRules_empty wf hsteps
    obtain ⟨hg, ho⟩ := budget_rules_empty wf hsteps b hb hb0
    have hB001 : check_workflow_budget wf = [] := by
      simp [check_workflow_budget, hb]
    have hS003 := check_input_validation_clean wf hin
    simp [run_lint, get_all_rules, RULE_REGISTRY, gatherFindings, hB001, hg, ho,
      h1, h2, h3, h4, h5, h6, h7, h8, h9, h10, h11, h12, h13, hS003]

/-- C1 counterexample: the empty-step workflow with no declared budget gets
the B001 warning from run_lint with no filters — one finding and score 95,
not an empty list and 100. -/
theorem empty_workflow_lint_not_clean :
    (run_lint wfEmptyNoBudget none none).findings.length = 1
    ∧ (run_lint wfEmptyNoBudget none none).score = 95 := by
  constructor <;> rfl

theorem empty_workflow_estimate_and_lint_witness :
    (∃ e, estimate_workflow [] wfEmptyWithBudget none none = .ok e
       ∧ e.total_tokens = 0 ∧ e.total_cost_usd = 0)
    ∧ run_lint wfEmptyWithBudget none none =
        { workflow_name := "empty", score := 100, findings := [],
          error_count := 0, warning_count := 0, info_count := 0 } :=
  empty_workflow_estimate_and_lint [] wfEmptyWithBudget none none rfl
    150000 rfl (by decide) rfl

theorem gorgonStepSignal_iff (v : YVal) :
    gorgonStepSignal v = true ↔
      ∃ kvs s, v = .map kvs ∧ ylookup kvs "type" = some (.str s)
        ∧ s ∈ GORGON_STEP_TYPES := by
  cases v with
  | map kvs =>
    cases ht : ylookup kvs "type" with
    | none => simp [gorgonStepSignal, ht]
    | some v2 => cases v2 <;> simp [gorgonStepSignal, ht]
  | null => simp [gorgonStepSignal]
  | bool b => simp [gorgonStepSignal]
  | int n => simp [gorgonStepSignal]
  | str s => simp [gorgonStepSignal]
  | list xs => simp [gorgonStepSignal]

theorem metaSignal_iff (m : YVal) :
    ((match m with | YVal.map _ => true | _ => false)
      && strHas (strLower (pyStr m)) "langgraph") = true
    ↔ ∃ kvs, m = .map kvs ∧ strHas (strLower (pyStr (.map kvs))) "langgraph" = true := by
  cases m <;> simp

theorem gorgonSignal_eval (raw : List (String × YVal)) :
    gorgonSignal raw ↔
      (match ylookup raw "steps" with
       | some (.list xs) => (!xs.isEmpty && xs.any gorgonStepSignal) = true
       | _ => False) := by
  unfold gorgonSignal
  cases hs : ylookup raw "steps" with
  | none => simp
  | some v =>
    cases v <;>
      simp [List.any_eq_true, gorgonStepSignal_iff, List.isEmpty_iff, and_assoc]

theorem pe_bind_ok {α β : Type} (a : α) (f : α → Except PyErr β) :
    (Except.ok a : Except PyErr α) >>= f = f a := rfl

theorem gorgonScan_hashable (xs : List YVal) (hh : xs.all hashableItem = true) :
    gorgonScan xs = .ok (xs.any gorgonStepSignal) := by
  induction xs with
  | nil => rfl
  | cons v rest ih =>
    rw [List.all_cons, Bool.and_eq_true] at hh
    obtain ⟨hv, hrest⟩ := hh
    cases v with
    | map kvs =>
      cases ht : ylookup kvs "type" with
      | none =>
        simp [gorgonScan, gorgonTypeTest, ht, pe_bind_ok, gorgonStepSignal, ih hrest]
      | some v2 =>
        cases v2 with
        | str s =>
          by_cases hc : s ∈ GORGON_STEP_TYPES
          · simp [gorgonScan, gorgonTypeTest, ht, pe_bind_ok, gorgonStepSignal, hc]
          · simp [gorgonScan, gorgonTypeTest, ht, pe_bind_ok, gorgonStepSignal,
              hc, ih hrest]
        | list ys => simp [hashableItem, ht] at hv
        | map m2 => simp [hashableItem, ht] at hv
        | null =>
          simp [gorgonScan, gorgonTypeTest, ht, pe_bind_ok, gorgonStepSignal, ih hrest]
        | bool b =>
          simp [gorgonScan, gorgonTypeTest, ht, pe_bind_ok, gorgonStepSignal, ih hrest]
        | int n =>
          simp [gorgonScan, gorgonTypeTest, ht, pe_bind_ok, gorgonStepSignal, ih hrest]
    | null => simp [gorgonScan, gorgonStepSignal, ih hrest]
    | bool b => simp [gorgonScan, gorgonStepSignal, ih hrest]
    | int n => simp [gorgonScan, gorgonStepSignal, ih hrest]
    | str s => simp [gorgonScan, gorgonStepSignal, ih hrest]
    | list ys => simp [gorgonScan, gorgonStepSignal, ih hrest]

theorem gorgonBranch_hashable (raw : List (String × YVal))
    (hh : stepsTypeHashable raw = true) :
    (gorgonBranch raw = .ok .gorgon ↔ gorgonSignal raw)
    ∧ (gorgonBranch raw = .ok .generic ↔ ¬gorgonSignal raw)
    ∧ gorgonBranch raw ≠ .ok .crewai ∧ gorgonBranch raw ≠ .ok .langchain := by
  have hg := gorgonSignal_eval raw
  cases hs : ylookup raw "steps" with
  | none =>
    rw [hs] at hg
    simp only [iff_false] at hg
    simp [gorgonBranch, hs, hg]
  | some v =>
    rw [hs] at hg
    cases v with
    | list xs =>
      have hall : xs.all hashableItem = true := by
        unfold stepsTypeHashable at hh
        rw [hs] at hh
        exact hh
      have hg2 : gorgonSignal raw ↔ (!xs.isEmpty && xs.any gorgonStepSignal) = true := hg
      have hb : gorgonBranch raw =
          (if !xs.isEmpty then
            gorgonScan xs >>= fun hit =>
              if hit then .ok WorkflowFormat.gorgon else .ok WorkflowFormat.generic
          else .ok .generic) := by
        simp only [gorgonBranch, hs]
      by_cases he : xs.isEmpty = true
      · rw [he] at hb hg2
        simp only [Bool.not_true, Bool.false_eq_true, if_false] at hb
        simp only [Bool.not_true, Bool.false_and, Bool.false_eq_true, iff_false] at hg2
        simp [hb, hg2]
      · have hef : xs.isEmpty = false := by
          cases hq : xs.isEmpty with
          | false => rfl
          | true => exact absurd hq he
        rw [hef] at hb hg2
        rw [gorgonScan_hashable xs hall] at hb
        simp only [Bool.not_false, if_true, pe_bind_ok] at hb
        simp only [Bool.not_false, Bool.true_and] at hg2
        by_cases ha : xs.any gorgonStepSignal = true
        · rw [ha] at hb
          have hgor : gorgonSignal raw := hg2.mpr ha
          simp only [if_true] at hb
          simp [hb, hgor]
        · have haf : xs.any gorgonStepSignal = false := by
            cases hq : xs.any gorgonStepSignal with
            | false => rfl
            | true => exact absurd hq ha
          rw [haf] at hb
          have hgor : ¬gorgonSignal raw := fun h => ha (hg2.mp h)
          simp only [Bool.false_eq_true, if_false] at hb
          simp [hb, hgor]
    | null =>
      simp only [iff_false] at hg
      simp [gorgonBranch, hs, hg]
    | bool b =>
      simp only [iff_false] at hg
      simp [gorgonBranch, hs, hg]
    | int n =>
      simp only [iff_false] at hg
      simp [gorgonBranch, hs, hg]
    | str s =>
      simp only [iff_false] at hg
      simp [gorgonBranch, hs, hg]
    | map kvs =>
      simp only [iff_false] at hg
      simp [gorgonBranch, hs, hg]

/-- C3 counterexample: the detection cascade is not total.  CPython
evaluates `step.get("type") in _GORGON_STEP_TYPES` by hashing the type
value, so a raw mapping whose first steps item carries a mapping-valued
type raises TypeError — before the second, step-graph-signalling item is
looked at — instead of returning a format tag. -/
theorem detect_format_raises_on_unhashable :
    detect_format c3UnhashableRaw = .error .typeError := by rfl

/-- C3 as amended: when no steps-list mapping item carries a list- or
mapping-valued "type" (the condition under which the membership test
cannot raise), detect_format returns exactly one format tag by the ordered
first-match cascade: agent/task format iff both "agents" and "tasks" keys
are present; else node/edge-graph format iff a "nodes" or "edges" key is
present or a "metadata" sub-mapping stringifies (case-insensitively) to
contain "langgraph"; else step-graph format iff "steps" holds a non-empty
list with at least one mapping item whose "type" is in the fixed
step-graph vocabulary; else the generic fallback.  Without the proviso
detection can instead raise TypeError, as the counterexample shows. -/
theorem detect_format_cascade (raw : List (String × YVal))
    (hh : stepsTypeHashable raw = true) :
    (detect_format raw = .ok .crewai ↔ crewaiSignal raw)
    ∧ (detect_format raw = .ok .langchain ↔ ¬crewaiSignal raw ∧ langchainSignal raw)
    ∧ (detect_format raw = .ok .gorgon ↔
        ¬crewaiSignal raw ∧ ¬langchainSignal raw ∧ gorgonSignal raw)
    ∧ (detect_format raw = .ok .generic ↔
        ¬crewaiSignal raw ∧ ¬langchainSignal raw ∧ ¬gorgonSignal raw) := by
  by_cases h1 : (ylookup raw "agents").isSome = true ∧ (ylookup raw "tasks").isSome = true
  · have hcrew : crewaiSignal raw := h1
    have hd : detect_format raw = .ok .crewai := by
      simp only [detect_format]
      rw [if_pos h1]
    simp [hd, hcrew]
  · by_cases h2 : (ylookup raw "nodes").isSome = true ∨ (ylookup raw "edges").isSome = true
    · have hlang : langchainSignal raw := by
        rcases h2 with h | h
        · exact Or.inl h
        · exact Or.inr (Or.inl h)
      have hd : detect_format raw = .ok .langchain := by
        simp only [detect_format]
        rw [if_neg h1, if_pos h2]
      simp [hd, crewaiSignal, h1, hlang]
    · obtain ⟨h2a, h2b⟩ := not_or.mp h2
      by_cases h3 : ((match (ylookup raw "metadata").getD (.map []) with
            | YVal.map _ => true | _ => false)
          && strHas (strLower (pyStr ((ylookup raw "metadata").getD (.map []))))
              "langgraph") = true
      · have hlang : langchainSignal raw := Or.inr (Or.inr ((metaSignal_iff _).mp h3))
        have hd : detect_format raw = .ok .langchain := by
          simp only [detect_format]
          rw [if_neg h1, if_neg h2, if_pos h3]
        simp [hd, crewaiSignal, h1, hlang]
      · have hnl : ¬langchainSignal raw := by
          intro hl
          rcases hl with h | h | h
          · exact h2a h
          · exact h2b h
          · exact h3 ((metaSignal_iff _).mpr h)
        have hd : detect_format raw = gorgonBranch raw := by
          simp only [detect_format]
          rw [if_neg h1, if_neg h2, if_neg h3]
        obtain ⟨hA, hB, hC, hD⟩ := gorgonBranch_hashable raw hh
        by_cases hgor : gorgonSignal raw
        · have hok : gorgonBranch raw = .ok .gorgon := hA.mpr hgor
          rw [hd, hok]
          simp [crewaiSignal, h1, hnl, hgor]
        · have hok : gorgonBranch raw = .ok .generic := hB.mpr hgor
          rw [hd, hok]
          simp [crewaiSignal, h1, hnl, hgor]

theorem detect_format_cascade_witness :
    detect_format [("agents", .list []), ("tasks", .list [])] = .ok .crewai :=
  (detect_format_cascade [("agents", .list []), ("tasks", .list [])] rfl).1.mpr
    ⟨rfl, rfl⟩

theorem estimate_step_provider_model (providers : List (String × ProviderConfig))
    (step : ParsedStep) (prov model : String) (se : StepEstimate)
    (h : estimate_step providers step prov model = .ok se) :
    se.provider = prov ∧ se.model = model := by
  simp only [estimate_step] at h
  by_cases ht : step.step_type ≠ StepType.llm
  · rw [if_pos ht] at h
    cases h
    exact ⟨rfl, rfl⟩
  · rw [if_neg ht] at h
    cases hp : get_model_pricing providers prov model with
    | error e => rw [hp] at h; cases h
    | ok pricing =>
      rw [hp] at h
      cases h
      exact ⟨rfl, rfl⟩

theorem runStepEstimates_forall2 (providers : List (String × ProviderConfig))
    (expl : Bool) (prov model : String) :
    ∀ steps ests, runStepEstimates providers expl prov model steps = .ok ests →
      List.Forall₂ (fun s se =>
        estimate_step providers s (if expl then prov else strOrOpt s.provider prov)
          (strOrOpt s.model model) = .ok se) steps ests := by
  intro steps
  induction steps with
  | nil =>
    intro ests h
    simp only [runStepEstimates] at h
    cases h
    exact .nil
  | cons s rest ih =>
    intro ests h
    simp only [runStepEstimates] at h
    cases he : estimate_step providers s (if expl then prov else strOrOpt s.provider prov)
        (strOrOpt s.model model) with
    | error e => rw [he] at h; cases h
    | ok e =>
      rw [he] at h
      cases hr : runStepEstimates providers expl prov model rest with
      | error e2 => rw [hr] at h; cases h
      | ok es =>
        rw [hr] at h
        cases h
        exact .cons he (ih es hr)

theorem forall2_mem_right {α β : Type} {R : α → β → Prop} :
    ∀ {l1 : List α} {l2 : List β}, List.Forall₂ R l1 l2 → ∀ b ∈ l2, ∃ a ∈ l1, R a b := by
  intro l1 l2 h
  induction h with
  | nil => intro b hb; cases hb
  | cons hR _ ih =>
    intro b hb
    rcases List.mem_cons.mp hb with rfl | hb2
    · exact ⟨_, List.mem_cons_self _ _, hR⟩
    · obtain ⟨a, ha, hr⟩ := ih b hb2
      exact ⟨a, List.mem_cons_of_mem _ ha, hr⟩

theorem estimate_workflow_shape (providers : List (String × ProviderConfig))
    (wf : ParsedWorkflow) (provider? model? : Option String) (est : WorkflowEstimate)
    (h : estimate_workflow providers wf provider? model? = .ok est) :
    ∃ ests, runStepEstimates providers provider?.isSome (estProv wf provider?)
        (estModel providers (estProv wf provider?) model?) wf.steps = .ok ests
      ∧ est.steps = ests ∧ est.provider = estProv wf provider?
      ∧ est.model = estModel providers (estProv wf provider?) model? := by
  simp only [estimate_workflow] at h
  cases hr : runStepEstimates providers provider?.isSome (estProv wf provider?)
      (estModel providers (estProv wf provider?) model?) wf.steps with
  | error e => rw [hr] at h; cases h
  | ok ests =>
    rw [hr] at h
    cases h
    exact ⟨ests, rfl, rfl, rfl, rfl⟩

/-- C7: provider/model resolution of estimate_workflow.  An explicitly
supplied provider becomes the resolved provider and is used for every step,
overriding each step's own declared provider.  An explicitly supplied model
becomes the resolved workflow-level model, which each step without its own
model uses.  With neither supplied, each step's own truthy declared
provider/model wins over the workflow-level resolved ones. -/
theorem estimate_workflow_override (providers : List (String × ProviderConfig))
    (wf : ParsedWorkflow) :
    (∀ p m? est, estimate_workflow providers wf (some p) m? = .ok est →
       est.provider = p ∧ ∀ se ∈ est.steps, se.provider = p)
    ∧ (∀ p? m est, estimate_workflow providers wf p? (some m) = .ok est →
       est.model = m ∧ List.Forall₂ (fun s se => se.model = strOrOpt s.model m)
         wf.steps est.steps)
    ∧ (∀ est, estimate_workflow providers wf none none = .ok est →
       List.Forall₂ (fun s se =>
           (∀ ps, s.provider = some ps → ps ≠ "" → se.provider = ps)
           ∧ (∀ ms, s.model = some ms → ms ≠ "" → se.model = ms))
         wf.steps est.steps) := by
  refine ⟨?_, ?_, ?_⟩
  · intro p m? est h
    obtain ⟨ests, hr, hsteps, hprov, hmodel⟩ := estimate_workflow_shape _ _ _ _ _ h
    have h2 := runStepEstimates_forall2 _ _ _ _ _ _ hr
    constructor
    · rw [hprov]
      rfl
    · intro se hse
      rw [hsteps] at hse
      obtain ⟨s, _, hstep⟩ := forall2_mem_right h2 se hse
      have hm := (estimate_step_provider_model _ _ _ _ _ hstep).1
      simpa [estProv] using hm
  · intro p? m est h
    obtain ⟨ests, hr, hsteps, hprov, hmodel⟩ := estimate_workflow_shape _ _ _ _ _ h
    constructor
    · rw [hmodel]
      rfl
    · rw [hsteps]
      have h2 := runStepEstimates_forall2 _ _ _ _ _ _ hr
      refine List.Forall₂.imp ?_ h2
      intro s se hstep
      have hm := (estimate_step_provider_model _ _ _ _ _ hstep).2
      simpa [estModel] using hm
  · intro est h
    obtain ⟨ests, hr, hsteps, hprov, hmodel⟩ := estimate_workflow_shape _ _ _ _ _ h
    rw [hsteps]
    have h2 := runStepEstimates_forall2 _ _ _ _ _ _ hr
    refine List.Forall₂.imp ?_ h2
    intro s se hstep
    have hpm := estimate_step_provider_model _ _ _ _ _ hstep
    constructor
    · intro ps hps hne
      rw [hpm.1]
      simp [strOrOpt, hps, hne]
    · intro ms hms hne
      rw [hpm.2]
      simp [strOrOpt, hms, hne]

theorem estimate_workflow_override_witness :
    (∃ est, estimate_workflow c7ProvTab c7Workflow (some "ovr") none = .ok est
       ∧ est.provider = "ovr" ∧ ∀ se ∈ est.steps, se.provider = "ovr")
    ∧ (∃ est, estimate_workflow c7ProvTab c7Workflow none (some "mdl") = .ok est
       ∧ est.model = "mdl")
    ∧ (∃ est, estimate_workflow c7ProvTab c7Workflow none none = .ok est
       ∧ List.Forall₂ (fun s se =>
           (∀ ps, s.provider = some ps → ps ≠ "" → se.provider = ps)
           ∧ (∀ ms, s.model = some ms → ms ≠ "" → se.model = ms))
         c7Workflow.steps est.steps) :=
  ⟨⟨_, rfl, ((estimate_workflow_override c7ProvTab c7Workflow).1 "ovr" none _ rfl).1,
    ((estimate_workflow_override c7ProvTab c7Workflow).1 "ovr" none _ rfl).2⟩,
   ⟨_, rfl, ((estimate_workflow_override c7ProvTab c7Workflow).2.1 none "mdl" _ rfl).1⟩,
   ⟨_, rfl, (estimate_workflow_override c7ProvTab c7Workflow).2.2 _ rfl⟩⟩

theorem check_step_budget_hog_stepid (wf : ParsedWorkflow) :
    ∀ f ∈ check_step_budget_hog wf, ∃ s ∈ wf.steps, f.step_id = some s.id := by
  intro f hf
  simp only [check_step_budget_hog] at hf
  repeat' split at hf
  all_goals first
    | cases hf
    | (simp only [List.mem_filterMap] at hf
       obtain ⟨s, hs, hmk⟩ := hf
       repeat' split at hmk
       all_goals first
         | (cases hmk; exact ⟨s, hs, rfl⟩)
         | cases hmk)

theorem check_undeclared_tokens_stepid (wf : ParsedWorkflow) :
    ∀ f ∈ check_undeclared_tokens wf, ∃ s ∈ wf.steps, f.step_id = some s.id := by
  intro f hf
  simp only [check_undeclared_tokens] at hf
  repeat' split at hf
  all_goals first
    | cases hf
    | (simp only [List.mem_filterMap] at hf
       obtain ⟨s, hs, hmk⟩ := hf
       repeat' split at hmk
       all_goals first
         | (cases hmk; exact ⟨s, hs, rfl⟩)
         | cases hmk)

theorem check_missing_on_failure_stepid (wf : ParsedWorkflow) :
    ∀ f ∈ check_missing_on_failure wf, ∃ s ∈ wf.steps, f.step_id = some s.id := by
  intro f hf
  simp only [check_missing_on_failure] at hf
  repeat' split at hf
  all_goals first
    | cases hf
    | (simp only [List.mem_filterMap] at hf
       obtain ⟨s, hs, hmk⟩ := hf
       repeat' split at hmk
       all_goals first
         | (cases hmk; exact ⟨s, hs, rfl⟩)
         | cases hmk)

theorem check_abort_no_fallback_stepid (wf : ParsedWorkflow) :
    ∀ f ∈ check_abort_no_fallback wf, ∃ s ∈ wf.steps, f.step_id = some s.id := by
  intro f hf
  simp only [check_abort_no_fallback] at hf
  repeat' split at hf
  all_goals first
    | cases hf
    | (simp only [List.mem_filterMap] at hf
       obtain ⟨s, hs, hmk⟩ := hf
       repeat' split at hmk
       all_goals first
         | (cases hmk; exact ⟨s, hs, rfl⟩)
         | cases hmk)

theorem check_retry_no_max_stepid (wf : ParsedWorkflow) :
    ∀ f ∈ check_retry_no_max wf, ∃ s ∈ wf.steps, f.step_id = some s.id := by
  intro f hf
  simp only [check_retry_no_max] at hf
  repeat' split at hf
  all_goals first
    | cases hf
    | (simp only [List.mem_filterMap] at hf
       obtain ⟨s, hs, hmk⟩ := hf
       repeat' split at hmk
       all_goals first
         | (cases hmk; exact ⟨s, hs, rfl⟩)
         | cases hmk)

theorem check_shell_no_timeout_stepid (wf : ParsedWorkflow) :
    ∀ f ∈ check_shell_no_timeout wf, ∃ s ∈ wf.steps, f.step_id = some s.id := by
  intro f hf
  simp only [check_shell_no_timeout] at hf
  repeat' split at hf
  all_goals first
    | cases hf
    | (simp only [List.mem_filterMap] at hf
       obtain ⟨s, hs, hmk⟩ := hf
       repeat' split at hmk
       all_goals first
         | (cases hmk; exact ⟨s, hs, rfl⟩)
         | cases hmk)

theorem check_fan_out_no_limit_stepid (wf : ParsedWorkflow) :
    ∀ f ∈ check_fan_out_no_limit wf, ∃ s ∈ wf.steps, f.step_id = some s.id := by
  intro f hf
  simp only [check_fan_out_no_limit] at hf
  repeat' split at hf
  all_goals first
    | cases hf
    | (simp only [List.mem_filterMap] at hf
       obtain ⟨s, hs, hmk⟩ := hf
       repeat' split at hmk
       all_goals first
         | (cases hmk; exact ⟨s, hs, rfl⟩)
         | cases hmk)

theorem check_shell_injection_stepid (wf : ParsedWorkflow) :
    ∀ f ∈ check_shell_injection wf, ∃ s ∈ wf.steps, f.step_id = some s.id := by
  intro f hf
  simp only [check_shell_injection] at hf
  repeat' split at hf
  all_goals first
    | cases hf
    | (simp only [List.mem_filterMap] at hf
       obtain ⟨s, hs, hmk⟩ := hf
       repeat' split at hmk
       all_goals first
         | (cases hmk; exact ⟨s, hs, rfl⟩)
         | cases hmk)

theorem check_hardcoded_paths_stepid (wf : ParsedWorkflow) :
    ∀ f ∈ check_hardcoded_paths wf, ∃ s ∈ wf.steps, f.step_id = some s.id := by
  intro f hf
  simp only [check_hardcoded_paths] at hf
  repeat' split at hf
  all_goals first
    | cases hf
    | (simp only [List.mem_filterMap] at hf
       obtain ⟨s, hs, hmk⟩ := hf
       repeat' split at hmk
       all_goals first
         | (cases hmk; exact ⟨s, hs, rfl⟩)
         | cases hmk)

theorem check_mcp_no_server_stepid (wf : ParsedWorkflow) :
    ∀ f ∈ check_mcp_no_server wf, ∃ s ∈ wf.steps, f.step_id = some s.id := by
  intro f hf
  simp only [check_mcp_no_server] at hf
  repeat' split at hf
  all_goals first
    | cases hf
    | (simp only [List.mem_filterMap] at hf
       obtain ⟨s, hs, hmk⟩ := hf
       repeat' split at hmk
       all_goals first
         | (cases hmk; exact ⟨s, hs, rfl⟩)
         | cases hmk)

theorem check_workflow_budget_stepid (wf : ParsedWorkflow) :
    ∀ f ∈ check_workflow_budget wf, f.step_id = none := by
  intro f hf
  simp only [check_workflow_budget] at hf
  repeat' split at hf
  all_goals first
    | (rw [List.mem_singleton] at hf
       subst hf
       rfl)
    | cases hf

theorem check_total_over_budget_stepid (wf : ParsedWorkflow) :
    ∀ f ∈ check_total_over_budget wf, f.step_id = none := by
  intro f hf
  simp only [check_total_over_budget] at hf
  repeat' split at hf
  all_goals first
    | (rw [List.mem_singleton] at hf
       subst hf
       rfl)
    | cases hf

theorem checkpointScan_stepid :
    ∀ (steps : List ParsedStep) (c t : Int) (f : LintFinding),
      f ∈ checkpointScan steps c t → f.step_id = none := by
  intro steps
  induction steps with
  | nil => intro c t f hf; cases hf
  | cons s rest ih =>
    intro c t f hf
    simp only [checkpointScan] at hf
    repeat' split at hf
    all_goals first
      | (rw [List.mem_singleton] at hf
         subst hf
         rfl)
      | exact ih _ _ f hf

theorem check_missing_checkpoint_stepid (wf : ParsedWorkflow) :
    ∀ f ∈ check_missing_checkpoint wf, f.step_id = none :=
  fun f hf => checkpointScan_stepid wf.steps 0 0 f hf

theorem check_duplicate_roles_stepid (wf : ParsedWorkflow) :
    ∀ f ∈ check_duplicate_roles wf, f.step_id = none := by
  intro f hf
  simp only [check_duplicate_roles, List.mem_filterMap] at hf
  obtain ⟨p, hp, hmk⟩ := hf
  split at hmk
  · cases hmk; rfl
  · cases hmk

theorem check_input_validation_stepid (wf : ParsedWorkflow) :
    ∀ f ∈ check_input_validation wf, f.step_id = none := by
  intro f hf
  simp only [check_input_validation] at hf
  split at hf
  · cases hf
  · simp only [List.mem_filterMap] at hf
    obtain ⟨nc, hnc, hmk⟩ := hf
    repeat' split at hmk
    all_goals first
      | (cases hmk; rfl)
      | cases hmk

theorem snd_mem_of_enumFrom {α : Type} :
    ∀ (l : List α) (n : Nat) (p : Nat × α), p ∈ l.enumFrom n → p.2 ∈ l := by
  intro l
  induction l with
  | nil => intro n p hp; cases hp
  | cons a as ih =>
    intro n p hp
    rcases List.mem_cons.mp hp with rfl | hp2
    · exact List.mem_cons_self _ _
    · exact List.mem_cons_of_mem _ (ih (n + 1) p hp2)

theorem check_lightweight_checkpoint_stepid (wf : ParsedWorkflow) :
    ∀ f ∈ check_lightweight_checkpoint wf, ∃ s ∈ wf.steps, f.step_id = some s.id := by
  intro f hf
  simp only [check_lightweight_checkpoint, List.mem_filterMap] at hf
  obtain ⟨iv, hiv, hmk⟩ := hf
  have hmem : iv.2 ∈ wf.steps := snd_mem_of_enumFrom wf.steps 0 iv hiv
  repeat' split at hmk
  all_goals first
    | (cases hmk; exact ⟨iv.2, hmem, rfl⟩)
    | cases hmk

theorem check_parallelizable_stepid (wf : ParsedWorkflow) :
    ∀ f ∈ check_parallelizable wf, ∃ s ∈ wf.steps, f.step_id = some s.id := by
  intro f hf
  simp only [check_parallelizable, List.mem_filterMap] at hf
  obtain ⟨cn, hcn, hmk⟩ := hf
  have h2 := List.of_mem_zip hcn
  have hnext : cn.2 ∈ wf.steps :=
    List.mem_of_mem_filter (List.mem_of_mem_tail h2.2)
  repeat' split at hmk
  all_goals first
    | (cases hmk; exact ⟨cn.2, hnext, rfl⟩)
    | cases hmk

/-- C8 as amended: after all rule modules are registered the registry holds
exactly seventeen built-in rules (B001-B004, R001-R005, E001-E004,
S001-S004), not fourteen; each is a pure function of the Workflow returning
zero or more findings; every finding either carries the id of one of the
workflow's steps or carries no step id; and the five workflow-level rules
(B001, B003, R005, E002, S003) never attach a step id. -/
theorem rule_registry_seventeen :
    RULE_REGISTRY.length = 17
    ∧ (∀ entry ∈ RULE_REGISTRY, ∀ wf : ParsedWorkflow, ∀ f ∈ entry.func wf,
        f.step_id = none ∨ ∃ s ∈ wf.steps, f.step_id = some s.id)
    ∧ (∀ wf : ParsedWorkflow,
        (∀ f ∈ check_workflow_budget wf, f.step_id = none)
        ∧ (∀ f ∈ check_total_over_budget wf, f.step_id = none)
        ∧ (∀ f ∈ check_missing_checkpoint wf, f.step_id = none)
        ∧ (∀ f ∈ check_duplicate_roles wf, f.step_id = none)
        ∧ (∀ f ∈ check_input_validation wf, f.step_id = none)) := by
  refine ⟨rfl, ?_, ?_⟩
  · intro entry hentry wf f hf
    simp only [RULE_REGISTRY, List.mem_cons, List.not_mem_nil, or_false] at hentry
    rcases hentry with rfl | rfl | rfl | rfl | rfl | rfl | rfl | rfl | rfl | rfl | rfl
      | rfl | rfl | rfl | rfl | rfl | rfl
    · exact Or.inl (check_workflow_budget_stepid wf f hf)
    · exact Or.inr (check_step_budget_hog_stepid wf f hf)
    · exact Or.inl (check_total_over_budget_stepid wf f hf)
    · exact Or.inr (check_undeclared_tokens_stepid wf f hf)
    · exact Or.inr (check_missing_on_failure_stepid wf f hf)
    · exact Or.inr (check_abort_no_fallback_stepid wf f hf)
    · exact Or.inr (check_retry_no_max_stepid wf f hf)
    · exact Or.inr (check_shell_no_timeout_stepid wf f hf)
    · exact Or.inl (check_missing_checkpoint_stepid wf f hf)
    · exact Or.inr (check_parallelizable_stepid wf f hf)
    · exact Or.inl (check_duplicate_roles_stepid wf f hf)
    · exact Or.inr (check_lightweight_checkpoint_stepid wf f hf)
    · exact Or.inr (check_fan_out_no_limit_stepid wf f hf)
    · exact Or.inr (check_shell_injection_stepid wf f hf)
    · exact Or.inr (check_hardcoded_paths_stepid wf f hf)
    · exact Or.inl (check_input_validation_stepid wf f hf)
    · exact Or.inr (check_mcp_no_server_stepid wf f hf)
  · intro wf
    exact ⟨check_workflow_budget_stepid wf, check_total_over_budget_stepid wf,
      check_missing_checkpoint_stepid wf, check_duplicate_roles_stepid wf,
      check_input_validation_stepid wf⟩

/-- C8 counterexample: the registry does not hold fourteen rules. -/
theorem rule_registry_not_fourteen : RULE_REGISTRY.length ≠ 14 := by decide

theorem rule_registry_seventeen_witness :
    ∀ f ∈ check_workflow_budget wfEmptyNoBudget, f.step_id = none :=
  ((rule_registry_seventeen).2.2 wfEmptyNoBudget).1

theorem parseStepListF_skip (fuel : Nat) (x : YVal) (hx : isMapVal x = false) :
    ∀ l1 l2, parseStepListF fuel (l1 ++ x :: l2) = parseStepListF fuel (l1 ++ l2) := by
  intro l1
  induction l1 with
  | nil =>
    intro l2
    cases x <;> simp_all [isMapVal] <;> simp [parseStepListF]
  | cons y rest ih =>
    intro l2
    cases y <;> simp [parseStepListF, ih]

theorem stepFuel_skip (x : YVal) (hx : isMapVal x = false) (l1 l2 : List YVal) :
    stepFuel (l1 ++ x :: l2) = stepFuel (l1 ++ l2) := by
  cases x <;> simp_all [isMapVal, stepFuel]

theorem parse_gorgon_skip (l1 l2 : List YVal) (x : YVal)
    (extra : List (String × YVal)) (sp : Option String) (hx : isMapVal x = false) :
    parse_gorgon (("steps", .list (l1 ++ x :: l2)) :: extra) sp
      = parse_gorgon (("steps", .list (l1 ++ l2)) :: extra) sp := by
  simp only [parse_gorgon, ylookup, pyIterItems, pe_bind_ok,
    show ¬(("steps" : String) = "name") from by decide,
    show ¬(("steps" : String) = "version") from by decide,
    show ¬(("steps" : String) = "description") from by decide,
    show ¬(("steps" : String) = "outputs") from by decide,
    show ¬(("steps" : String) = "token_budget") from by decide,
    show ¬(("steps" : String) = "timeout_seconds") from by decide,
    show ¬(("steps" : String) = "inputs") from by decide,
    show ¬(("steps" : String) = "metadata") from by decide,
    ite_false, ite_true, eq_self_iff_true, Option.getD_some]
  rw [stepFuel_skip x hx, parseStepListF_skip _ x hx]

theorem parseAgentsLoop_append (x : YVal) (hx : isMapVal x = false) :
    ∀ items i, parseAgentsLoop (items ++ [x]) i = parseAgentsLoop items i := by
  intro items
  induction items with
  | nil =>
    intro i
    cases x <;> simp_all [isMapVal] <;> simp [parseAgentsLoop]
  | cons y rest ih =>
    intro i
    cases y <;> simp [parseAgentsLoop, ih]

theorem parseTasksLoop_append (x : YVal) (hx : isMapVal x = false) :
    ∀ items i, parseTasksLoop (items ++ [x]) i = parseTasksLoop items i := by
  intro items
  induction items with
  | nil =>
    intro i
    cases x <;> simp_all [isMapVal] <;> simp [parseTasksLoop]
  | cons y rest ih =>
    intro i
    cases y <;> simp [parseTasksLoop, ih]

theorem parseGenericListLoop_append (label : String) (x : YVal) (hx : isMapVal x = false) :
    ∀ items i, parseGenericListLoop label (items ++ [x]) i
      = parseGenericListLoop label items i := by
  intro items
  induction items with
  | nil =>
    intro i
    cases x <;> simp_all [isMapVal] <;> simp [parseGenericListLoop]
  | cons y rest ih =>
    intro i
    cases y <;> simp [parseGenericListLoop, ih]

theorem parse_crewai_append (as ts : List YVal) (x y : YVal) (sp : Option String)
    (hx : isMapVal x = false) (hy : isMapVal y = false) :
    parse_crewai [("agents", .list (as ++ [x])), ("tasks", .list (ts ++ [y]))] sp
      = parse_crewai [("agents", .list as), ("tasks", .list ts)] sp := by
  simp only [parse_crewai, ylookup, pyIterItems, pe_bind_ok, Option.getD_some,
    show ¬(("agents" : String) = "name") from by decide,
    show ¬(("agents" : String) = "crew") from by decide,
    show ¬(("tasks" : String) = "name") from by decide,
    show ¬(("tasks" : String) = "crew") from by decide,
    show ¬(("agents" : String) = "tasks") from by decide,
    show ¬(("agents" : String) = "token_budget") from by decide,
    show ¬(("tasks" : String) = "token_budget") from by decide,
    show ¬(("agents" : String) = "max_tokens") from by decide,
    show ¬(("tasks" : String) = "max_tokens") from by decide,
    show ¬(("agents" : String) = "inputs") from by decide,
    show ¬(("tasks" : String) = "inputs") from by decide,
    show ¬(("agents" : String) = "metadata") from by decide,
    show ¬(("tasks" : String) = "metadata") from by decide,
    ite_false, ite_true, eq_self_iff_true]
  rw [parseAgentsLoop_append x hx, parseTasksLoop_append y hy]

theorem parse_generic_append (xs : List YVal) (x : YVal) (sp : Option String)
    (hx : isMapVal x = false) :
    parse_generic [("steps", .list (xs ++ [x]))] sp
      = parse_generic [("steps", .list xs)] sp := by
  simp only [parse_generic, genericFallbackLoop, parseGenericListLoop, ylookup,
    pe_bind_ok, Option.getD_some,
    show ¬(("steps" : String) = "name") from by decide,
    show ¬(("steps" : String) = "workflow") from by decide,
    show ¬(("steps" : String) = "token_budget") from by decide,
    show ¬(("steps" : String) = "budget") from by decide,
    show ¬(("steps" : String) = "inputs") from by decide,
    show ¬(("steps" : String) = "outputs") from by decide,
    show ¬(("steps" : String) = "metadata") from by decide,
    show ¬(("steps" : String) = "agents") from by decide,
    show ¬(("steps" : String) = "tasks") from by decide,
    show ¬(("steps" : String) = "pipeline") from by decide,
    ite_false, ite_true, eq_self_iff_true]
  rw [parseGenericListLoop_append "step" x hx]

theorem parseNodesLoop_append (x : YVal) (hx : isMapVal x = false) :
    ∀ items i, parseNodesLoop (items ++ [x]) i = parseNodesLoop items i := by
  intro items
  induction items with
  | nil =>
    intro i
    cases x <;> simp_all [isMapVal] <;> simp [parseNodesLoop]
  | cons y rest ih =>
    intro i
    cases y <;> simp [parseNodesLoop, ih]

theorem applyEdgesLoop_append (y : YVal) (hy : isMapVal y = false) :
    ∀ (ids : List String) (es : List YVal) (steps : List ParsedStep),
      applyEdgesLoop ids (es ++ [y]) steps = applyEdgesLoop ids es steps := by
  intro ids es
  induction es with
  | nil =>
    intro steps
    cases y <;> simp_all [isMapVal] <;> simp [applyEdgesLoop, applyEdge]
  | cons e rest ih =>
    intro steps
    simp [applyEdgesLoop, ih]

theorem parse_langchain_append (ns es : List YVal) (x y : YVal) (sp : Option String)
    (hx : isMapVal x = false) (hy : isMapVal y = false) :
    parse_langchain [("nodes", .list (ns ++ [x])), ("edges", .list (es ++ [y]))] sp
      = parse_langchain [("nodes", .list ns), ("edges", .list es)] sp := by
  simp only [parse_langchain, ylookup, pyIterItems, pe_bind_ok, Option.getD_some,
    show ¬(("nodes" : String) = "name") from by decide,
    show ¬(("edges" : String) = "name") from by decide,
    show ¬(("nodes" : String) = "graph") from by decide,
    show ¬(("edges" : String) = "graph") from by decide,
    show ¬(("nodes" : String) = "edges") from by decide,
    show ¬(("nodes" : String) = "token_budget") from by decide,
    show ¬(("edges" : String) = "token_budget") from by decide,
    show ¬(("nodes" : String) = "inputs") from by decide,
    show ¬(("edges" : String) = "inputs") from by decide,
    show ¬(("nodes" : String) = "metadata") from by decide,
    show ¬(("edges" : String) = "metadata") from by decide,
    ite_false, ite_true, eq_self_iff_true]
  rw [parseNodesLoop_append x hx]
  simp only [applyEdgesLoop_append y hy]

/-- C5 as amended: list items that are not mappings are silently skipped by
all four normalizers — step-graph steps, agent/task agents and tasks,
node/edge-graph nodes and edges, and generic steps (removing or inserting
a non-mapping item leaves the parse unchanged; for the index-sensitive
agent/task, node and generic loops this is stated for a trailing item,
since the positional fallback ids of later items shift otherwise), but the
normalizers are not total: structurally odd though syntactically valid
field values can raise, as the counterexample shows. -/
theorem normalizers_skip_nonmapping :
    (∀ (l1 l2 : List YVal) (x : YVal) (extra : List (String × YVal)) (sp : Option String),
        isMapVal x = false →
        parse_gorgon (("steps", .list (l1 ++ x :: l2)) :: extra) sp
          = parse_gorgon (("steps", .list (l1 ++ l2)) :: extra) sp)
    ∧ (∀ (as ts : List YVal) (x y : YVal) (sp : Option String),
        isMapVal x = false → isMapVal y = false →
        parse_crewai [("agents", .list (as ++ [x])), ("tasks", .list (ts ++ [y]))] sp
          = parse_crewai [("agents", .list as), ("tasks", .list ts)] sp)
    ∧ (∀ (ns es : List YVal) (x y : YVal) (sp : Option String),
        isMapVal x = false → isMapVal y = false →
        parse_langchain [("nodes", .list (ns ++ [x])), ("edges", .list (es ++ [y]))] sp
          = parse_langchain [("nodes", .list ns), ("edges", .list es)] sp)
    ∧ (∀ (xs : List YVal) (x : YVal) (sp : Option String),
        isMapVal x = false →
        parse_generic [("steps", .list (xs ++ [x]))] sp
          = parse_generic [("steps", .list xs)] sp) :=
  ⟨fun l1 l2 x extra sp hx => parse_gorgon_skip l1 l2 x extra sp hx,
   fun as ts x y sp hx hy => parse_crewai_append as ts x y sp hx hy,
   fun ns es x y sp hx hy => parse_langchain_append ns es x y sp hx hy,
   fun xs x sp hx => parse_generic_append xs x sp hx⟩

/-- C5 counterexample: the agent/task normalizer raises TypeError on a
syntactically valid top-level mapping whose task declares a non-sliceable
description, refuting "never raises". -/
theorem parse_crewai_raises_on_nonstring_description :
    parse_crewai crewBad none = .error .typeError := by rfl

theorem normalizers_skip_nonmapping_witness :
    parse_gorgon [("steps", .list [.str "junk", .map [("id", .str "a")]])] none
      = parse_gorgon [("steps", .list [.map [("id", .str "a")]])] none
    ∧ parse_crewai [("agents", .list [.int 3]), ("tasks", .list [.bool true])] none
      = parse_crewai [("agents", .list []), ("tasks", .list [])] none
    ∧ parse_langchain [("nodes", .list [.str "junk"]), ("edges", .list [.int 7])] none
      = parse_langchain [("nodes", .list []), ("edges", .list [])] none
    ∧ parse_generic [("steps", .list [.null])] none
      = parse_generic [("steps", .list [])] none :=
  ⟨(normalizers_skip_nonmapping).1 [] [.map [("id", .str "a")]] (.str "junk") [] none rfl,
   (normalizers_skip_nonmapping).2.1 [] [] (.int 3) (.bool true) none rfl rfl,
   (normalizers_skip_nonmapping).2.2.1 [] [] (.str "junk") (.int 7) none rfl rfl,
   (normalizers_skip_nonmapping).2.2.2 [] .null none rfl⟩
